import Mathlib

/-
Verification development for the ic-cosmos repository.

The definitions below are shallow embeddings of the Rust sources:
  * src/ic-cosmos/src/types/cosmos_transaction_utils.rs (wire primitives,
    message codec, sign-doc and broadcast builders, ABCI account parser)
  * src/ic-solana/src/rpc_client.rs (consensus client: call_internal cycle
    accounting, process_result)
  * src/ic-cosmos-wallet/src/main.rs (transaction pipeline signature gate)
  * src/cosmos-utils/src/lib.rs (prost message declarations used to
    characterise well-formed QueryAccountResponse inputs)

Machine integers (u64) are modelled as Nat with explicit reduction mod 2 ^ 64
exactly where Rust wrapping occurs; byte strings are List Nat with each
element below 256; fallible Rust functions return Except.
-/

/-! Wire primitives.  These mirror the helpers in cosmos_transaction_utils.rs:
the varint encoder (lines 240-249), the length-delimited / string / uint64
field encoders (lines 252-269), and the varint and length-delimited readers
that parse_account_info_from_abci defines as closures (lines 84-116).
The same reader logic appears as read_varint_at in cosmos-utils/src/lib.rs
(lines 724-745). -/

/-- Embeds encode_varint (cosmos_transaction_utils.rs lines 240-249): LEB128
with 7 payload bits per byte, continuation bit 0x80 on all but the last. -/
def encode_varint (value : Nat) : List Nat :=
  if 0x80 ≤ value then ((value &&& 0x7F) ||| 0x80) :: encode_varint (value >>> 7)
  else [value]
termination_by value
decreasing_by
  simp only [Nat.shiftRight_eq_div_pow]
  exact Nat.div_lt_self (by omega) (by norm_num)

/-- Embeds encode_length_delimited (lines 252-257): tag byte, varint length,
raw bytes. -/
def encode_length_delimited (tag : Nat) (data : List Nat) : List Nat :=
  tag :: (encode_varint data.length ++ data)

/-- UTF-8 bytes of one character (how Rust str::as_bytes sees it). -/
def utf8Char (c : Char) : List Nat :=
  let n := c.toNat
  if n < 0x80 then [n]
  else if n < 0x800 then
    [0xC0 ||| (n >>> 6), 0x80 ||| (n &&& 0x3F)]
  else if n < 0x10000 then
    [0xE0 ||| (n >>> 12), 0x80 ||| ((n >>> 6) &&& 0x3F), 0x80 ||| (n &&& 0x3F)]
  else
    [0xF0 ||| (n >>> 18), 0x80 ||| ((n >>> 12) &&& 0x3F),
     0x80 ||| ((n >>> 6) &&& 0x3F), 0x80 ||| (n &&& 0x3F)]

/-- UTF-8 bytes of a Rust String / str. -/
def strBytes (s : String) : List Nat :=
  (s.data.map utf8Char).flatten

/-- Embeds encode_string (lines 260-262). -/
def encode_string (tag : Nat) (value : String) : List Nat :=
  encode_length_delimited tag (strBytes value)

/-- Embeds encode_uint64 (lines 265-269). -/
def encode_uint64 (tag : Nat) (value : Nat) : List Nat :=
  tag :: encode_varint value

/-- Embeds the read_varint closure of parse_account_info_from_abci
(cosmos_transaction_utils.rs lines 84-105) and read_varint_at of
cosmos-utils/src/lib.rs (lines 724-745): value and shift are the running
accumulators; the Rust shift of a u64 discards bits above 2 ^ 64. -/
def read_varint_go (data : List Nat) (pos value shift : Nat) :
    Except String (Nat × Nat) :=
  if h : pos < data.length then
    let byte := data.get ⟨pos, h⟩
    let value2 := value ||| (((byte &&& 0x7F) <<< shift) % 2 ^ 64)
    if byte &&& 0x80 = 0 then .ok (value2, pos + 1)
    else if 64 ≤ shift + 7 then .error "Varint too long"
    else read_varint_go data (pos + 1) value2 (shift + 7)
  else .error "Unexpected end of data while reading varint"
termination_by data.length - pos
decreasing_by omega

/-- The varint reader: starts with value 0 and shift 0. -/
def read_varint (data : List Nat) (pos : Nat) : Except String (Nat × Nat) :=
  read_varint_go data pos 0 0

/-- Embeds the read_bytes closure (lines 108-116): varint length then that
many bytes; fails if fewer bytes remain than declared. -/
def read_bytes (data : List Nat) (pos : Nat) : Except String (List Nat × Nat) :=
  match read_varint data pos with
  | .error e => .error e
  | .ok (length, pos2) =>
    if data.length < pos2 + length then .error "Length exceeds remaining data"
    else .ok ((data.drop pos2).take length, pos2 + length)

/-! Basic facts about the readers: a successful read advances the cursor. -/

theorem read_varint_go_lt :
    ∀ (k : Nat) (data : List Nat) (pos value shift w p : Nat),
      data.length - pos ≤ k →
      read_varint_go data pos value shift = .ok (w, p) → pos < p := by
  intro k
  induction k with
  | zero =>
    intro data pos value shift w p hk h
    rw [read_varint_go] at h
    rw [dif_neg (by omega)] at h
    exact absurd h (by simp)
  | succ k ih =>
    intro data pos value shift w p hk h
    rw [read_varint_go] at h
    by_cases hlt : pos < data.length
    · rw [dif_pos hlt] at h
      simp only [] at h
      split at h
      · have : p = pos + 1 := by
          have := h
          simp only [Except.ok.injEq, Prod.mk.injEq] at this
          exact this.2.symm
        omega
      · split at h
        · exact absurd h (by simp)
        · have := ih data (pos + 1) _ _ w p (by omega) h
          omega
    · rw [dif_neg hlt] at h
      exact absurd h (by simp)

theorem read_varint_lt (data : List Nat) (pos w p : Nat)
    (h : read_varint data pos = .ok (w, p)) : pos < p :=
  read_varint_go_lt (data.length - pos) data pos 0 0 w p (le_refl _) h

theorem read_bytes_lt (data : List Nat) (pos : Nat) (bs : List Nat) (p : Nat)
    (h : read_bytes data pos = .ok (bs, p)) : pos < p := by
  rw [read_bytes] at h
  split at h
  · exact absurd h (by simp)
  · rename_i len pos2 heq
    split at h
    · exact absurd h (by simp)
    · simp only [Except.ok.injEq, Prod.mk.injEq] at h
      have := read_varint_lt data pos len pos2 heq
      omega

/-! Helper lemmas about lists accessed through a cursor, and about the
interaction of shifts with bitwise or.  These support the round-trip and
parser lemmas below. -/

theorem shiftLeft_or_distrib (a b n : Nat) :
    (a ||| b) <<< n = (a <<< n) ||| (b <<< n) := by
  apply Nat.eq_of_testBit_eq
  intro i
  simp only [Nat.testBit_shiftLeft, Nat.testBit_or]
  by_cases h : n ≤ i <;> simp [h]

theorem varint_split (v : Nat) : (v &&& 127) ||| ((v >>> 7) <<< 7) = v := by
  apply Nat.eq_of_testBit_eq
  intro i
  simp only [Nat.testBit_or, Nat.testBit_and, Nat.testBit_shiftLeft,
    Nat.testBit_shiftRight]
  by_cases h : 7 ≤ i
  · have h127 : (127 : Nat).testBit i = false := by
      have : (127 : Nat) < 2 ^ i :=
        lt_of_lt_of_le (by norm_num) (Nat.pow_le_pow_right (by norm_num) h)
      exact Nat.testBit_lt_two_pow this
    simp [h, h127, Nat.add_sub_cancel' h]
  · have h127 : (127 : Nat).testBit i = true := by
      interval_cases i <;> decide
    simp [h, h127]

theorem pos_lt_of_drop_cons {data : List Nat} {pos x : Nat} {xs : List Nat}
    (h : data.drop pos = x :: xs) : pos < data.length := by
  by_contra hc
  rw [List.drop_eq_nil_of_le (by omega)] at h
  exact absurd h (by simp)

theorem get_of_drop_cons {data : List Nat} {pos x : Nat} {xs : List Nat}
    (h : data.drop pos = x :: xs) (hp : pos < data.length) :
    data.get ⟨pos, hp⟩ = x := by
  have h2 := List.getElem?_drop data pos 0
  rw [Nat.add_zero, h] at h2
  have h1 : data[pos]? = some x := by rw [← h2]; simp
  have h3 : data[pos]? = some (data.get ⟨pos, hp⟩) := by
    simp [List.getElem?_eq_getElem hp]
  rw [h3] at h1
  exact Option.some_inj.mp h1

theorem drop_succ_of_drop_cons {data : List Nat} {pos x : Nat} {xs : List Nat}
    (h : data.drop pos = x :: xs) : data.drop (pos + 1) = xs := by
  have : (data.drop pos).drop 1 = data.drop (pos + 1) := by
    rw [List.drop_drop]
  rw [← this, h]
  rfl

theorem drop_add_of_drop_append {data : List Nat} {pos : Nat} {pre rest : List Nat}
    (h : data.drop pos = pre ++ rest) : data.drop (pos + pre.length) = rest := by
  have h2 : (data.drop pos).drop pre.length = data.drop (pos + pre.length) :=
    List.drop_drop _ _ _
  rw [h, List.drop_left] at h2
  exact h2.symm

/-! Round trip: reading back an encoded varint. -/

theorem encode_varint_ne_nil (v : Nat) : encode_varint v ≠ [] := by
  rw [encode_varint]
  split <;> simp

theorem read_varint_go_encode :
    ∀ (v : Nat) (data : List Nat) (pos value shift : Nat) (rest : List Nat),
      data.drop pos = encode_varint v ++ rest → v <<< shift < 2 ^ 64 →
      read_varint_go data pos value shift =
        .ok (value ||| (v <<< shift), pos + (encode_varint v).length) := by
  intro v
  induction v using Nat.strong_induction_on with
  | _ v ih =>
    intro data pos value shift rest hdrop hlt
    rw [encode_varint] at hdrop ⊢
    by_cases hv : 0x80 ≤ v
    · rw [if_pos hv] at hdrop ⊢
      rw [List.cons_append] at hdrop
      have hp : pos < data.length := pos_lt_of_drop_cons hdrop
      have hbyte := get_of_drop_cons hdrop hp
      rw [read_varint_go, dif_pos hp]
      simp only [hbyte]
      -- the emitted byte has the continuation bit set
      have hmask : (v &&& 127 ||| 128) &&& 127 = v &&& 127 := by
        rw [Nat.and_distrib_right]
        have h1 : (128 : Nat) &&& 127 = 0 := by decide
        have h2 : (127 : Nat) &&& 127 = 127 := by decide
        rw [h1, Nat.or_zero, Nat.and_assoc, h2]
      have hcont : (v &&& 127 ||| 128) &&& 128 = 128 := by
        rw [Nat.and_distrib_right]
        have h1 : (v &&& 127) &&& 128 = 0 := by
          rw [Nat.and_assoc]
          have : (127 : Nat) &&& 128 = 0 := by decide
          rw [this, Nat.and_zero]
        have h2 : (128 : Nat) &&& 128 = 128 := by decide
        rw [h1, h2, Nat.zero_or]
      rw [hmask]
      rw [if_neg (by rw [hcont]; norm_num)]
      -- shift stays below 64 because the remaining value still fits
      have hshift : ¬ 64 ≤ shift + 7 := by
        intro hge
        have h1 : (2 : Nat) ^ 7 ≤ v := hv
        have h2 : (2 : Nat) ^ (7 + shift) ≤ v <<< shift := by
          rw [Nat.shiftLeft_eq, Nat.pow_add]
          exact Nat.mul_le_mul_right _ h1
        have h3 : (2 : Nat) ^ 64 ≤ 2 ^ (7 + shift) :=
          Nat.pow_le_pow_right (by norm_num) (by omega)
        omega
      rw [if_neg hshift]
      -- the recursive call reads the tail of the encoding
      have hdrop2 : data.drop (pos + 1) = encode_varint (v >>> 7) ++ rest :=
        drop_succ_of_drop_cons hdrop
      have hlt2 : (v >>> 7) <<< (shift + 7) < 2 ^ 64 := by
        have hle : (v >>> 7) <<< (shift + 7) ≤ v <<< shift := by
          rw [Nat.shiftLeft_eq, Nat.shiftLeft_eq, Nat.shiftRight_eq_div_pow]
          calc v / 2 ^ 7 * 2 ^ (shift + 7) = v / 2 ^ 7 * 2 ^ 7 * 2 ^ shift := by
                rw [Nat.pow_add]
                ring
            _ ≤ v * 2 ^ shift := Nat.mul_le_mul_right _ (Nat.div_mul_le_self v _)
        exact lt_of_le_of_lt hle hlt
      have hrec := ih (v >>> 7) (by
          rw [Nat.shiftRight_eq_div_pow]
          exact Nat.div_lt_self (by omega) (by norm_num))
        data (pos + 1) (value ||| (v &&& 127) <<< shift % 2 ^ 64) (shift + 7)
        rest hdrop2 hlt2
      rw [hrec]
      -- recombine the low 7 bits with the shifted high bits
      have hsmall : (v &&& 127) <<< shift % 2 ^ 64 = (v &&& 127) <<< shift := by
        apply Nat.mod_eq_of_lt
        have : (v &&& 127) <<< shift ≤ v <<< shift := by
          rw [Nat.shiftLeft_eq, Nat.shiftLeft_eq]
          exact Nat.mul_le_mul_right _ (Nat.and_le_left)
        omega
      rw [hsmall]
      have hcomb : (v &&& 127) <<< shift ||| (v >>> 7) <<< (shift + 7) =
          v <<< shift := by
        have : (v >>> 7) <<< (shift + 7) = ((v >>> 7) <<< 7) <<< shift := by
          rw [← Nat.shiftLeft_add]
          rw [Nat.add_comm 7 shift]
        rw [this, ← shiftLeft_or_distrib, varint_split]
      rw [Nat.or_assoc, hcomb]
      simp only [List.length_cons]
      have hpos : pos + 1 + (encode_varint (v >>> 7)).length =
          pos + ((encode_varint (v >>> 7)).length + 1) := by omega
      rw [hpos]
    · rw [if_neg hv] at hdrop ⊢
      rw [List.cons_append] at hdrop
      have hp : pos < data.length := pos_lt_of_drop_cons hdrop
      have hbyte := get_of_drop_cons hdrop hp
      rw [read_varint_go, dif_pos hp]
      simp only [hbyte]
      have hm : v &&& 127 = v := by
        have := Nat.and_pow_two_sub_one_eq_mod v 7
        norm_num at this
        rw [this]
        exact Nat.mod_eq_of_lt (by omega)
      have hc : v &&& 128 = 0 := by
        apply Nat.eq_of_testBit_eq
        intro i
        simp only [Nat.testBit_and, Nat.zero_testBit]
        by_cases hi : i = 7
        · subst hi
          have hv7 : v.testBit 7 = false :=
            Nat.testBit_lt_two_pow (by norm_num; omega)
          simp [hv7]
        · have h128f : (128 : Nat).testBit i = false := by
            have h128 : (128 : Nat) = 2 ^ 7 := by norm_num
            rw [h128, Nat.testBit_two_pow]
            simp [Ne.symm hi]
          simp [h128f]
      rw [hm, hc]
      rw [if_pos rfl]
      rw [Nat.mod_eq_of_lt hlt]
      rfl

theorem read_varint_encode (v : Nat) (data : List Nat) (pos : Nat)
    (rest : List Nat) (hdrop : data.drop pos = encode_varint v ++ rest)
    (hlt : v < 2 ^ 64) :
    read_varint data pos = .ok (v, pos + (encode_varint v).length) := by
  have := read_varint_go_encode v data pos 0 0 rest hdrop
    (by rw [Nat.shiftLeft_eq]; simpa using hlt)
  rw [read_varint, this]
  simp

theorem read_bytes_encode (bs : List Nat) (data : List Nat) (pos : Nat)
    (rest : List Nat)
    (hdrop : data.drop pos = encode_varint bs.length ++ (bs ++ rest))
    (hlen : bs.length < 2 ^ 64) :
    read_bytes data pos =
      .ok (bs, pos + (encode_varint bs.length).length + bs.length) := by
  have hv := read_varint_encode bs.length data pos (bs ++ rest) hdrop hlen
  rw [read_bytes]
  rw [hv]
  simp only []
  have hdrop2 : data.drop (pos + (encode_varint bs.length).length) = bs ++ rest :=
    drop_add_of_drop_append hdrop
  have hlenle : ¬ data.length < pos + (encode_varint bs.length).length + bs.length := by
    have hld : (data.drop pos).length = data.length - pos := by simp
    rw [hdrop] at hld
    simp only [List.length_append] at hld
    have hple : pos ≤ data.length := by
      by_contra hc
      rw [List.drop_eq_nil_of_le (by omega)] at hdrop
      cases henc : encode_varint bs.length with
      | nil => exact encode_varint_ne_nil bs.length henc
      | cons a l => rw [henc] at hdrop; exact absurd hdrop.symm (by simp)
    omega
  rw [if_neg hlenle, hdrop2, List.take_left]

/-! Structure of the varint encoding: byte bounds, continuation bits, and the
payload reconstruction used to state that encode_varint is exactly LEB128. -/

theorem and128_eq_zero_of_lt {v : Nat} (hv : v < 128) : v &&& 128 = 0 := by
  apply Nat.eq_of_testBit_eq
  intro i
  simp only [Nat.testBit_and, Nat.zero_testBit]
  by_cases hi : i = 7
  · subst hi
    have hv7 : v.testBit 7 = false := Nat.testBit_lt_two_pow (by norm_num; omega)
    simp [hv7]
  · have h128f : (128 : Nat).testBit i = false := by
      have h128 : (128 : Nat) = 2 ^ 7 := by norm_num
      rw [h128, Nat.testBit_two_pow]
      simp [Ne.symm hi]
    simp [h128f]

theorem cont_byte_and128 (x : Nat) (hx : x < 128) : (x ||| 128) &&& 128 = 128 := by
  rw [Nat.and_distrib_right, and128_eq_zero_of_lt hx, Nat.zero_or]
  decide

theorem cont_byte_and127 (x : Nat) : ((x &&& 127) ||| 128) &&& 127 = x &&& 127 := by
  rw [Nat.and_distrib_right]
  have h1 : (128 : Nat) &&& 127 = 0 := by decide
  have h2 : (127 : Nat) &&& 127 = 127 := by decide
  rw [h1, Nat.or_zero, Nat.and_assoc, h2]

theorem and127_lt (v : Nat) : v &&& 127 < 128 := by
  have := Nat.and_pow_two_sub_one_eq_mod v 7
  norm_num at this
  rw [this]
  exact Nat.mod_lt _ (by norm_num)

theorem and127_of_lt {v : Nat} (hv : v < 128) : v &&& 127 = v := by
  have := Nat.and_pow_two_sub_one_eq_mod v 7
  norm_num at this
  rw [this]
  exact Nat.mod_eq_of_lt hv

/-- Payload reconstruction: 7 payload bits per byte, least significant first. -/
def varint_value (l : List Nat) : Nat :=
  l.foldr (fun b acc => (b &&& 0x7F) ||| (acc <<< 7)) 0

theorem encode_varint_bytes_lt (v : Nat) : ∀ b ∈ encode_varint v, b < 256 := by
  induction v using Nat.strong_induction_on with
  | _ v ih =>
    intro b hb
    rw [encode_varint] at hb
    split at hb
    · rcases List.mem_cons.mp hb with h | h
      · subst h
        have : ((v &&& 127) ||| 128 : Nat) < 2 ^ 8 :=
          Nat.or_lt_two_pow (by have := and127_lt v; norm_num; omega) (by norm_num)
        norm_num at this
        omega
      · exact ih (v >>> 7) (by
          rw [Nat.shiftRight_eq_div_pow]
          exact Nat.div_lt_self (by omega) (by norm_num)) b h
    · rcases List.mem_singleton.mp hb with h
      subst h
      omega

theorem encode_varint_cont_bits (v : Nat) :
    (∀ b ∈ (encode_varint v).dropLast, b &&& 128 = 128) ∧
    (∀ h : encode_varint v ≠ [], (encode_varint v).getLast h &&& 128 = 0) := by
  induction v using Nat.strong_induction_on with
  | _ v ih =>
    rw [encode_varint]
    split
    · rename_i hv
      have ihv := ih (v >>> 7) (by
        rw [Nat.shiftRight_eq_div_pow]
        exact Nat.div_lt_self (by omega) (by norm_num))
      have hne := encode_varint_ne_nil (v >>> 7)
      constructor
      · intro b hb
        rw [List.dropLast_cons_of_ne_nil hne] at hb
        rcases List.mem_cons.mp hb with h | h
        · subst h
          exact cont_byte_and128 (v &&& 127) (and127_lt v)
        · exact ihv.1 b h
      · intro h
        rw [List.getLast_cons hne]
        exact ihv.2 hne
    · rename_i hv
      constructor
      · intro b hb
        simp at hb
      · intro h
        simp only [List.getLast_singleton]
        exact and128_eq_zero_of_lt (by omega)

theorem varint_value_encode (v : Nat) : varint_value (encode_varint v) = v := by
  induction v using Nat.strong_induction_on with
  | _ v ih =>
    rw [encode_varint]
    split
    · rename_i hv
      have ihv := ih (v >>> 7) (by
        rw [Nat.shiftRight_eq_div_pow]
        exact Nat.div_lt_self (by omega) (by norm_num))
      rw [varint_value, List.foldr_cons]
      rw [show (List.foldr (fun b acc => (b &&& 0x7F) ||| (acc <<< 7))
        0 (encode_varint (v >>> 7))) = varint_value (encode_varint (v >>> 7)) from rfl]
      rw [ihv, cont_byte_and127, varint_split]
    · rename_i hv
      rw [varint_value, List.foldr_cons, List.foldr_nil]
      rw [Nat.zero_shiftLeft, Nat.or_zero]
      exact and127_of_lt (by omega)

/-! Full characterization of read_varint, by the length of the run of
continuation bytes at the cursor. -/

/-- Number of consecutive bytes with the continuation bit set, starting at
the cursor. -/
def contRun (data : List Nat) (pos : Nat) : Nat :=
  ((data.drop pos).takeWhile (fun b => b &&& 128 != 0)).length

theorem rv_go_char :
    ∀ (t m : Nat), m + t = 9 → ∀ (data : List Nat) (pos value : Nat),
      value < 2 ^ 64 →
      (10 - m ≤ contRun data pos →
        read_varint_go data pos value (7 * m) = .error "Varint too long") ∧
      (contRun data pos < 10 - m → (data.drop pos).length = contRun data pos →
        read_varint_go data pos value (7 * m) =
          .error "Unexpected end of data while reading varint") ∧
      (contRun data pos < 10 - m → contRun data pos < (data.drop pos).length →
        ∃ v, v < 2 ^ 64 ∧
          read_varint_go data pos value (7 * m) =
            .ok (v, pos + contRun data pos + 1)) := by
  intro t
  induction t with
  | zero =>
    intro m hm data pos value hval
    have hm9 : m = 9 := by omega
    subst hm9
    cases hd : data.drop pos with
    | nil =>
      have hlen : data.length ≤ pos := List.drop_eq_nil_iff.mp hd
      have hcr : contRun data pos = 0 := by rw [contRun, hd]; rfl
      have hrw : read_varint_go data pos value (7 * 9) =
          .error "Unexpected end of data while reading varint" := by
        rw [read_varint_go, dif_neg (by omega)]
      exact ⟨fun hge => by rw [hcr] at hge; omega,
        fun _ _ => hrw,
        fun h1 h2 => by rw [hcr] at h2; simp at h2⟩
    | cons b tl =>
      have hp : pos < data.length := pos_lt_of_drop_cons hd
      have hb := get_of_drop_cons hd hp
      by_cases hcont : b &&& 128 = 0
      · have hcr : contRun data pos = 0 := by
          rw [contRun, hd, List.takeWhile_cons]
          simp [hcont]
        have hrw : read_varint_go data pos value (7 * 9) =
            .ok (value ||| ((b &&& 127) <<< (7 * 9)) % 2 ^ 64, pos + 1) := by
          rw [read_varint_go, dif_pos hp]
          simp only [hb]
          rw [if_pos hcont]
        refine ⟨fun hge => by rw [hcr] at hge; omega,
          fun h1 h2 => by rw [hcr] at h2; simp at h2, fun _ _ => ?_⟩
        refine ⟨value ||| ((b &&& 127) <<< (7 * 9)) % 2 ^ 64,
          Nat.or_lt_two_pow hval (Nat.mod_lt _ (by norm_num)), ?_⟩
        rw [hrw, hcr]
      · have hcr : contRun data pos = contRun data (pos + 1) + 1 := by
          rw [contRun, hd, List.takeWhile_cons]
          have hbt : (b &&& 128 != 0) = true := by simp [hcont]
          rw [hbt]
          simp only [if_true, List.length_cons, contRun,
            drop_succ_of_drop_cons hd]
        have hrw : read_varint_go data pos value (7 * 9) =
            .error "Varint too long" := by
          rw [read_varint_go, dif_pos hp]
          simp only [hb]
          rw [if_neg hcont, if_pos (by norm_num)]
        exact ⟨fun _ => hrw,
          fun h1 _ => by omega,
          fun h1 _ => by omega⟩
  | succ t ih =>
    intro m hm data pos value hval
    have hmle : m ≤ 8 := by omega
    cases hd : data.drop pos with
    | nil =>
      have hlen : data.length ≤ pos := List.drop_eq_nil_iff.mp hd
      have hcr : contRun data pos = 0 := by rw [contRun, hd]; rfl
      have hrw : read_varint_go data pos value (7 * m) =
          .error "Unexpected end of data while reading varint" := by
        rw [read_varint_go, dif_neg (by omega)]
      exact ⟨fun hge => by rw [hcr] at hge; omega,
        fun _ _ => hrw,
        fun h1 h2 => by rw [hcr] at h2; simp at h2⟩
    | cons b tl =>
      have hp : pos < data.length := pos_lt_of_drop_cons hd
      have hb := get_of_drop_cons hd hp
      by_cases hcont : b &&& 128 = 0
      · have hcr : contRun data pos = 0 := by
          rw [contRun, hd, List.takeWhile_cons]
          simp [hcont]
        have hrw : read_varint_go data pos value (7 * m) =
            .ok (value ||| ((b &&& 127) <<< (7 * m)) % 2 ^ 64, pos + 1) := by
          rw [read_varint_go, dif_pos hp]
          simp only [hb]
          rw [if_pos hcont]
        refine ⟨fun hge => by rw [hcr] at hge; omega,
          fun h1 h2 => by rw [hcr] at h2; simp at h2, fun _ _ => ?_⟩
        refine ⟨value ||| ((b &&& 127) <<< (7 * m)) % 2 ^ 64,
          Nat.or_lt_two_pow hval (Nat.mod_lt _ (by norm_num)), ?_⟩
        rw [hrw, hcr]
      · have hdrop1 : data.drop (pos + 1) = tl := drop_succ_of_drop_cons hd
        have hcr : contRun data pos = contRun data (pos + 1) + 1 := by
          rw [contRun, hd, List.takeWhile_cons]
          have hbt : (b &&& 128 != 0) = true := by simp [hcont]
          rw [hbt]
          simp only [if_true, List.length_cons, contRun, hdrop1]
        have hlen1 : (data.drop (pos + 1)).length = tl.length := by
          rw [hdrop1]
        have hval2 : value ||| ((b &&& 127) <<< (7 * m)) % 2 ^ 64 < 2 ^ 64 :=
          Nat.or_lt_two_pow hval (Nat.mod_lt _ (by norm_num))
        have hrec := ih (m + 1) (by omega) data (pos + 1)
          (value ||| ((b &&& 127) <<< (7 * m)) % 2 ^ 64) hval2
        have h7 : 7 * (m + 1) = 7 * m + 7 := by ring
        rw [h7] at hrec
        have hstep : read_varint_go data pos value (7 * m) =
            read_varint_go data (pos + 1)
              (value ||| ((b &&& 127) <<< (7 * m)) % 2 ^ 64) (7 * m + 7) := by
          rw [read_varint_go, dif_pos hp]
          simp only [hb]
          rw [if_neg hcont, if_neg (by omega)]
        refine ⟨fun hge => ?_, fun h1 h2 => ?_, fun h1 h2 => ?_⟩
        · rw [hstep]
          exact hrec.1 (by omega)
        · have h2a : tl.length + 1 = contRun data pos := by simpa using h2
          rw [hstep]
          exact hrec.2.1 (by omega) (by omega)
        · have h2a : contRun data pos < tl.length + 1 := by simpa using h2
          obtain ⟨v, hv64, hok⟩ := hrec.2.2 (by omega) (by omega)
          refine ⟨v, hv64, ?_⟩
          rw [hstep, hok]
          rw [show pos + 1 + contRun data (pos + 1) + 1 =
            pos + contRun data pos + 1 from by omega]

/-- Claim C6 (amended): the varint decoder fails with the malformed-varint
error "Varint too long" as soon as it has seen 10 continuation bytes (the
64-bit overflow guard fires on the 10th continuation byte, not only beyond
the 10th); it fails with the end-of-data error when the input ends while
every remaining byte has the continuation bit; in all other cases it returns
a u64 (a value below 2 ^ 64) and advances the cursor exactly past the bytes
consumed. -/
theorem c6_read_varint_characterization (data : List Nat) (pos : Nat) :
    (10 ≤ contRun data pos → read_varint data pos = .error "Varint too long") ∧
    (contRun data pos < 10 → (data.drop pos).length = contRun data pos →
      read_varint data pos =
        .error "Unexpected end of data while reading varint") ∧
    (contRun data pos < 10 → contRun data pos < (data.drop pos).length →
      ∃ v, v < 2 ^ 64 ∧
        read_varint data pos = .ok (v, pos + contRun data pos + 1)) := by
  have h := rv_go_char 9 0 (by norm_num) data pos 0 (by norm_num)
  rw [Nat.mul_zero] at h
  rw [read_varint]
  simpa using h

/-- Claim C6 witness: a two-byte varint with one continuation byte decodes to
a value and leaves the cursor after the terminating byte. -/
theorem c6_witness :
    ∃ v, v < 2 ^ 64 ∧
      read_varint [131, 1] 0 = .ok (v, 0 + contRun [131, 1] 0 + 1) :=
  (c6_read_varint_characterization [131, 1] 0).2.2 (by decide) (by decide)

/-- Claim C6 counterexample to the claim as stated: this input contains
exactly 10 continuation bytes (not more than 10) followed by a terminating
byte, so under the claimed case split the decoder would return a u64; the
code rejects it with the overflow guard after the 10th continuation byte. -/
theorem c6_counterexample :
    contRun [128, 128, 128, 128, 128, 128, 128, 128, 128, 128, 0] 0 = 10 ∧
    contRun [128, 128, 128, 128, 128, 128, 128, 128, 128, 128, 0] 0 <
      ([128, 128, 128, 128, 128, 128, 128, 128, 128, 128, 0] : List Nat).length ∧
    read_varint [128, 128, 128, 128, 128, 128, 128, 128, 128, 128, 0] 0 =
      .error "Varint too long" := by
  refine ⟨by decide, by decide, ?_⟩
  have h := (rv_go_char 9 0 (by norm_num)
    [128, 128, 128, 128, 128, 128, 128, 128, 128, 128, 0] 0 0 (by norm_num)).1
  rw [Nat.mul_zero] at h
  rw [read_varint]
  exact h (by decide)

/-- Claim C7: for every u64 value, encode_varint emits LEB128 bytes (7
payload bits per byte, continuation bit 0x80 on every byte except the last),
and read_varint starting at cursor 0 decodes the produced bytes back to the
same value, consuming exactly the encoded bytes. -/
theorem c7_encode_varint_leb128_round_trip (v : Nat) (hv : v < 2 ^ 64) :
    encode_varint v ≠ [] ∧
    (∀ b ∈ encode_varint v, b < 256) ∧
    (∀ b ∈ (encode_varint v).dropLast, b &&& 0x80 = 0x80) ∧
    (∀ h : encode_varint v ≠ [], (encode_varint v).getLast h &&& 0x80 = 0) ∧
    varint_value (encode_varint v) = v ∧
    read_varint (encode_varint v) 0 = .ok (v, (encode_varint v).length) := by
  refine ⟨encode_varint_ne_nil v, encode_varint_bytes_lt v,
    (encode_varint_cont_bits v).1, (encode_varint_cont_bits v).2,
    varint_value_encode v, ?_⟩
  have h := read_varint_encode v (encode_varint v) 0 [] (by simp) hv
  simpa using h

/-- Claim C7 witness at the two-byte value 300. -/
theorem c7_witness :
    (300 : Nat) < 2 ^ 64 ∧
    read_varint (encode_varint 300) 0 = .ok (300, (encode_varint 300).length) :=
  ⟨by norm_num, (c7_encode_varint_leb128_round_trip 300 (by norm_num)).2.2.2.2.2⟩

/-! JSON model (serde_json::Value) and the generic Cosmos message codec of
cosmos_transaction_utils.rs. -/

/-- Model of serde_json::Value. -/
inductive Json where
  | null : Json
  | bool : Bool → Json
  | num : Int → Json
  | str : String → Json
  | arr : List Json → Json
  | obj : List (String × Json) → Json

/-- Indexing a serde_json::Value with a string key (value["k"]): yields Null
when the key is absent or the value is not an object. -/
def Json.getKey : Json → String → Json
  | .obj kvs, k => ((kvs.find? (fun p => p.1 == k)).map (fun p => p.2)).getD .null
  | _, _ => .null

/-- Value::as_str. -/
def Json.asStr : Json → Option String
  | .str s => some s
  | _ => none

/-- Value::as_array. -/
def Json.asArr : Json → Option (List Json)
  | .arr l => some l
  | _ => none

/-- Value::as_object. -/
def Json.asObj : Json → Option (List (String × Json))
  | .obj kvs => some kvs
  | _ => none

/-- Outcome of Rust code that may return an error string or panic.  A panic
(trap) propagates past every map_err, so it is kept distinct. -/
inductive Err where
  | msg : String → Err
  | panic : String → Err
deriving DecidableEq

/-- Indexing a serde_json::Map (the result of as_object) with a missing key
panics in Rust with "no entry found for key"; a present key yields its
value. -/
def mapIndex (kvs : List (String × Json)) (k : String) : Except Err Json :=
  match kvs.find? (fun p => p.1 == k) with
  | some p => .ok p.2
  | none => .error (.panic "no entry found for key")

/-- Option::ok_or with a message, as used for every required key. -/
def ofOption {α : Type} (o : Option α) (e : String) : Except Err α :=
  match o with
  | some a => .ok a
  | none => .error (.msg e)

theorem exceptBind_ok {α β ε : Type} (a : α) (f : α → Except ε β) :
    (Except.ok a >>= f) = f a := rfl

theorem exceptBind_err {α β ε : Type} (e : ε) (f : α → Except ε β) :
    ((Except.error e : Except ε α) >>= f) = .error e := rfl

/-- CosmosCoin (cosmos_transaction_utils.rs lines 34-38). -/
structure CosmosCoin where
  denom : String
  amount : String

/-- CosmosMessage (lines 27-31): type_url plus an open JSON value. -/
structure CosmosMessage where
  type_url : String
  value : Json

/-- CosmosTransaction (lines 15-24). -/
structure CosmosTransaction where
  messages : List CosmosMessage
  fee : List CosmosCoin
  gas_limit : Nat
  memo : String
  chain_id : String
  account_number : Nat
  sequence : Nat

/-- Embeds encode_msg_send (lines 286-309). -/
def encode_msg_send (value : Json) : Except Err (List Nat) := do
  let from_address ← ofOption (value.getKey "from_address").asStr
    "Missing from_address in MsgSend"
  let to_address ← ofOption (value.getKey "to_address").asStr
    "Missing to_address in MsgSend"
  let amount_array ← ofOption (value.getKey "amount").asArr
    "Missing amount array in MsgSend"
  let init := encode_string 0x0a from_address ++ encode_string 0x12 to_address
  amount_array.foldlM (fun msg_bytes coin_value => do
    let denom ← ofOption (coin_value.getKey "denom").asStr "Missing denom in coin"
    let amount ← ofOption (coin_value.getKey "amount").asStr "Missing amount in coin"
    let coin_bytes := encode_string 0x0a denom ++ encode_string 0x12 amount
    pure (msg_bytes ++ encode_length_delimited 0x1a coin_bytes)) init

/-- Embeds encode_msg_delegate (lines 312-337).  The amount object is
indexed as a serde_json::Map, so a missing denom or amount key panics. -/
def encode_msg_delegate (value : Json) : Except Err (List Nat) := do
  let delegator_address ← ofOption (value.getKey "delegator_address").asStr
    "Missing delegator_address in MsgDelegate"
  let validator_address ← ofOption (value.getKey "validator_address").asStr
    "Missing validator_address in MsgDelegate"
  let amount ← ofOption (value.getKey "amount").asObj
    "Missing amount object in MsgDelegate"
  let dj ← mapIndex amount "denom"
  let denom ← ofOption dj.asStr "Missing denom in amount"
  let aj ← mapIndex amount "amount"
  let amount_str ← ofOption aj.asStr "Missing amount value"
  let coin_bytes := encode_string 0x0a denom ++ encode_string 0x12 amount_str
  pure (encode_string 0x0a delegator_address ++
    encode_string 0x12 validator_address ++
    encode_length_delimited 0x1a coin_bytes)

/-- Embeds encode_msg_undelegate (lines 340-365). -/
def encode_msg_undelegate (value : Json) : Except Err (List Nat) := do
  let delegator_address ← ofOption (value.getKey "delegator_address").asStr
    "Missing delegator_address in MsgUndelegate"
  let validator_address ← ofOption (value.getKey "validator_address").asStr
    "Missing validator_address in MsgUndelegate"
  let amount ← ofOption (value.getKey "amount").asObj
    "Missing amount object in MsgUndelegate"
  let dj ← mapIndex amount "denom"
  let denom ← ofOption dj.asStr "Missing denom in amount"
  let aj ← mapIndex amount "amount"
  let amount_str ← ofOption aj.asStr "Missing amount value"
  let coin_bytes := encode_string 0x0a denom ++ encode_string 0x12 amount_str
  pure (encode_string 0x0a delegator_address ++
    encode_string 0x12 validator_address ++
    encode_length_delimited 0x1a coin_bytes)

/-- Embeds encode_msg_begin_redelegate (lines 368-397). -/
def encode_msg_begin_redelegate (value : Json) : Except Err (List Nat) := do
  let delegator_address ← ofOption (value.getKey "delegator_address").asStr
    "Missing delegator_address in MsgBeginRedelegate"
  let validator_src_address ← ofOption (value.getKey "validator_src_address").asStr
    "Missing validator_src_address in MsgBeginRedelegate"
  let validator_dst_address ← ofOption (value.getKey "validator_dst_address").asStr
    "Missing validator_dst_address in MsgBeginRedelegate"
  let amount ← ofOption (value.getKey "amount").asObj
    "Missing amount object in MsgBeginRedelegate"
  let dj ← mapIndex amount "denom"
  let denom ← ofOption dj.asStr "Missing denom in amount"
  let aj ← mapIndex amount "amount"
  let amount_str ← ofOption aj.asStr "Missing amount value"
  let coin_bytes := encode_string 0x0a denom ++ encode_string 0x12 amount_str
  pure (encode_string 0x0a delegator_address ++
    encode_string 0x12 validator_src_address ++
    encode_string 0x1a validator_dst_address ++
    encode_length_delimited 0x22 coin_bytes)

/-- Embeds encode_msg_withdraw_delegator_reward (lines 400-413). -/
def encode_msg_withdraw_delegator_reward (value : Json) : Except Err (List Nat) := do
  let delegator_address ← ofOption (value.getKey "delegator_address").asStr
    "Missing delegator_address in MsgWithdrawDelegatorReward"
  let validator_address ← ofOption (value.getKey "validator_address").asStr
    "Missing validator_address in MsgWithdrawDelegatorReward"
  pure (encode_string 0x0a delegator_address ++
    encode_string 0x12 validator_address)

/-- Embeds encode_message_to_protobuf (lines 272-283). -/
def encode_message_to_protobuf (message : CosmosMessage) : Except Err (List Nat) :=
  match message.type_url with
  | "/cosmos.bank.v1beta1.MsgSend" => encode_msg_send message.value
  | "/cosmos.staking.v1beta1.MsgDelegate" => encode_msg_delegate message.value
  | "/cosmos.staking.v1beta1.MsgUndelegate" => encode_msg_undelegate message.value
  | "/cosmos.staking.v1beta1.MsgBeginRedelegate" =>
    encode_msg_begin_redelegate message.value
  | "/cosmos.distribution.v1beta1.MsgWithdrawDelegatorReward" =>
    encode_msg_withdraw_delegator_reward message.value
  | _ => .error (.msg ("Unsupported message type: " ++ message.type_url))

/-- Embeds extract_signer_address_from_message (lines 564-582). -/
def extract_signer_address_from_message (message : CosmosMessage) :
    Except Err String :=
  match message.type_url with
  | "/cosmos.bank.v1beta1.MsgSend" =>
    ofOption (message.value.getKey "from_address").asStr
      "Missing from_address in MsgSend"
  | "/cosmos.staking.v1beta1.MsgDelegate" =>
    ofOption (message.value.getKey "delegator_address").asStr
      "Missing delegator_address in staking/distribution message"
  | "/cosmos.staking.v1beta1.MsgUndelegate" =>
    ofOption (message.value.getKey "delegator_address").asStr
      "Missing delegator_address in staking/distribution message"
  | "/cosmos.staking.v1beta1.MsgBeginRedelegate" =>
    ofOption (message.value.getKey "delegator_address").asStr
      "Missing delegator_address in staking/distribution message"
  | "/cosmos.distribution.v1beta1.MsgWithdrawDelegatorReward" =>
    ofOption (message.value.getKey "delegator_address").asStr
      "Missing delegator_address in staking/distribution message"
  | _ => .error (.msg ("Unsupported message type for signer extraction: " ++
      message.type_url))

/-- TxBody bytes: the per-message Any loop plus memo and timeout_height
emission.  This block appears verbatim both in create_sign_doc_bytes (lines
417-433) and in build_transaction_for_broadcast (lines 493-509). -/
def tx_body_bytes_of (transaction : CosmosTransaction) : Except Err (List Nat) := do
  let msgs ← transaction.messages.foldlM (fun tx_body_bytes message => do
    let msg_bytes ← encode_message_to_protobuf message
    let msg_any_bytes := encode_string 0x0a message.type_url ++
      encode_length_delimited 0x12 msg_bytes
    pure (tx_body_bytes ++ encode_length_delimited 0x0a msg_any_bytes)) []
  pure (msgs ++ encode_string 0x12 transaction.memo ++ encode_uint64 0x18 0)

/-- AuthInfo bytes: pubkey Any, fee, mode info and signer info emission.
This block appears verbatim both in create_sign_doc_bytes (lines 436-475)
and in build_transaction_for_broadcast (lines 512-551). -/
def auth_info_bytes_of (transaction : CosmosTransaction)
    (public_key : List Nat) : List Nat :=
  let pub_key_bytes := encode_length_delimited 0x0a public_key
  let pub_key_any_bytes := encode_string 0x0a "/cosmos.crypto.secp256k1.PubKey" ++
    encode_length_delimited 0x12 pub_key_bytes
  let fee_bytes := (transaction.fee.foldl (fun fee_bytes coin =>
      fee_bytes ++ encode_length_delimited 0x0a
        (encode_string 0x0a coin.denom ++ encode_string 0x12 coin.amount)) []) ++
    encode_uint64 0x10 transaction.gas_limit ++
    encode_string 0x1a "" ++ encode_string 0x22 ""
  let mode_info_bytes := encode_length_delimited 0x0a (encode_uint64 0x08 1)
  let signer_info_bytes := encode_length_delimited 0x0a pub_key_any_bytes ++
    encode_length_delimited 0x12 mode_info_bytes ++
    encode_uint64 0x18 transaction.sequence
  encode_length_delimited 0x0a signer_info_bytes ++
    encode_length_delimited 0x12 fee_bytes

/-- Embeds create_sign_doc_bytes (lines 416-485): SignDoc with body_bytes
(field 1), auth_info_bytes (field 2), chain_id (field 3) and account_number
(field 4). -/
def create_sign_doc_bytes (transaction : CosmosTransaction)
    (public_key : List Nat) : Except Err (List Nat) := do
  let tx_body_bytes ← tx_body_bytes_of transaction
  let auth_info_bytes := auth_info_bytes_of transaction public_key
  pure (encode_length_delimited 0x0a tx_body_bytes ++
    encode_length_delimited 0x12 auth_info_bytes ++
    encode_string 0x1a transaction.chain_id ++
    encode_uint64 0x20 transaction.account_number)

/-- Standard base64 alphabet (the STANDARD engine of the base64 crate). -/
def b64chars : List Char :=
  "ABCDEFGHIJKLMNOPQRSTUVWXYZabcdefghijklmnopqrstuvwxyz0123456789+/".data

def b64c (n : Nat) : Char := b64chars.getD n 'A'

/-- Standard base64 with padding. -/
def base64Chars : List Nat → List Char
  | [] => []
  | [a] => [b64c (a >>> 2), b64c ((a &&& 3) <<< 4), '=', '=']
  | [a, b] => [b64c (a >>> 2), b64c (((a &&& 3) <<< 4) ||| (b >>> 4)),
      b64c ((b &&& 15) <<< 2), '=']
  | a :: b :: c :: rest =>
    b64c (a >>> 2) :: b64c (((a &&& 3) <<< 4) ||| (b >>> 4)) ::
      b64c (((b &&& 15) <<< 2) ||| (c >>> 6)) :: b64c (c &&& 63) ::
      base64Chars rest

def base64Encode (bs : List Nat) : String := String.mk (base64Chars bs)

/-- The Tx bytes assembled by build_transaction_for_broadcast (lines
554-557) before base64 encoding: body (field 1), auth_info (field 2),
signatures (field 3). -/
def build_tx_bytes (transaction : CosmosTransaction)
    (public_key signature : List Nat) : Except Err (List Nat) := do
  let tx_body_bytes ← tx_body_bytes_of transaction
  let auth_info_bytes := auth_info_bytes_of transaction public_key
  pure (encode_length_delimited 0x0a tx_body_bytes ++
    encode_length_delimited 0x12 auth_info_bytes ++
    encode_length_delimited 0x1a signature)

/-- Embeds build_transaction_for_broadcast (lines 488-561): the Tx bytes,
base64-encoded. -/
def build_transaction_for_broadcast (transaction : CosmosTransaction)
    (public_key signature : List Nat) : Except Err String :=
  (build_tx_bytes transaction public_key signature).map base64Encode

/-- Claim C1: create_sign_doc_bytes depends only on its two arguments, so
two calls with the same CosmosTransaction and public key return identical
byte sequences. -/
theorem c1_create_sign_doc_bytes_deterministic
    (t1 t2 : CosmosTransaction) (pk1 pk2 : List Nat)
    (ht : t1 = t2) (hpk : pk1 = pk2) :
    create_sign_doc_bytes t1 pk1 = create_sign_doc_bytes t2 pk2 := by
  subst ht
  subst hpk
  rfl

/-- Claim C1 witness: two calls at a concrete transaction and key agree. -/
theorem c1_witness :
    create_sign_doc_bytes ⟨[], [], 0, "", "chain", 1, 2⟩ [2, 3] =
      create_sign_doc_bytes ⟨[], [], 0, "", "chain", 1, 2⟩ [2, 3] :=
  c1_create_sign_doc_bytes_deterministic _ _ _ _ rfl rfl

/-! Consensus client error type and the wallet transaction pipeline
(signature gate). -/

/-- RpcApi provider description (rpc_client/types, as used by
rpc_client.rs): a network URL and optional headers. -/
structure RpcApi where
  url : String
  headers : List (String × String)
deriving DecidableEq

/-- Model of RpcError restricted to the variants the embedded code
constructs: ParseError, Text, and InconsistentResponse. -/
inductive RpcError where
  | parseError : String → RpcError
  | text : String → RpcError
  | inconsistentResponse : List (RpcApi × String) → RpcError
deriving DecidableEq

/-- A wallet call either returns an RpcResult or traps (Rust panic). -/
inductive WalletErr where
  | rpc : RpcError → WalletErr
  | trap : String → WalletErr
deriving DecidableEq

/-- How send_cosmos_transaction wraps the Result of
build_transaction_for_broadcast (main.rs line 260-261): the error string
becomes RpcError::ParseError; a panic inside the codec traps instead. -/
def wrap_build_result : Except Err String → Except WalletErr String
  | .ok tx_base64 => .ok tx_base64
  | .error (.msg e) => .error (.rpc (.parseError e))
  | .error (.panic p) => .error (.trap p)

/-- Embeds the tail of send_cosmos_transaction (ic-cosmos-wallet/src/main.rs
lines 249-261): the signature length gate, then the broadcast build.  A
signature of at least 64 bytes is truncated to its first 64 bytes; a shorter
one is rejected before any transaction is built.  The same gate appears in
create_send_transaction (cosmos-utils/src/lib.rs lines 150-161). -/
def send_tx_finalize (transaction : CosmosTransaction)
    (pk signature : List Nat) : Except WalletErr String :=
  if 64 ≤ signature.length then
    wrap_build_result
      (build_transaction_for_broadcast transaction pk (signature.take 64))
  else
    .error (.rpc (.parseError ("Signature too short: got " ++
      toString signature.length ++ " bytes, expected at least 64")))

/-- Claim C3: a signature of fewer than 64 bytes is rejected with the
signature-too-short error and no transaction is built; exactly 64 bytes is
passed to the broadcast build unchanged; more than 64 bytes is truncated to
the first 64 bytes and accepted. -/
theorem c3_signature_length_gate (transaction : CosmosTransaction)
    (pk signature : List Nat) :
    (signature.length < 64 →
      send_tx_finalize transaction pk signature =
        .error (.rpc (.parseError ("Signature too short: got " ++
          toString signature.length ++ " bytes, expected at least 64")))) ∧
    (signature.length = 64 →
      send_tx_finalize transaction pk signature =
        wrap_build_result
          (build_transaction_for_broadcast transaction pk signature)) ∧
    (64 < signature.length →
      send_tx_finalize transaction pk signature =
        wrap_build_result
          (build_transaction_for_broadcast transaction pk (signature.take 64))) := by
  refine ⟨fun h => ?_, fun h => ?_, fun h => ?_⟩
  · rw [send_tx_finalize, if_neg (by omega)]
  · rw [send_tx_finalize, if_pos (by omega)]
    rw [List.take_of_length_le (by omega)]
  · rw [send_tx_finalize, if_pos (by omega)]

/-- Claim C3 witness: the three cases at signatures of 63, 64 and 70 zero
bytes. -/
theorem c3_witness :
    (send_tx_finalize ⟨[], [], 0, "", "", 0, 0⟩ [1] (List.replicate 63 0) =
      .error (.rpc (.parseError ("Signature too short: got " ++
        toString (List.replicate 63 (0 : Nat)).length ++
        " bytes, expected at least 64")))) ∧
    (send_tx_finalize ⟨[], [], 0, "", "", 0, 0⟩ [1] (List.replicate 64 0) =
      wrap_build_result (build_transaction_for_broadcast
        ⟨[], [], 0, "", "", 0, 0⟩ [1] (List.replicate 64 0))) ∧
    (send_tx_finalize ⟨[], [], 0, "", "", 0, 0⟩ [1] (List.replicate 70 0) =
      wrap_build_result (build_transaction_for_broadcast
        ⟨[], [], 0, "", "", 0, 0⟩ [1] ((List.replicate 70 (0 : Nat)).take 64))) :=
  ⟨(c3_signature_length_gate _ [1] (List.replicate 63 0)).1 (by decide),
   (c3_signature_length_gate _ [1] (List.replicate 64 0)).2.1 (by decide),
   (c3_signature_length_gate _ [1] (List.replicate 70 0)).2.2 (by decide)⟩

/-! Claim C9: message typing and required-key errors. -/

theorem exceptMap_ok {α β ε : Type} (a : α) (f : α → β) :
    (f <$> (Except.ok a : Except ε α)) = .ok (f a) := rfl

theorem exceptMap_err {α β ε : Type} (e : ε) (f : α → β) :
    (f <$> (Except.error e : Except ε α)) = .error e := rfl

theorem exceptPure {α ε : Type} (a : α) : (pure a : Except ε α) = .ok a := rfl

/-- The five supported type_url values. -/
def supported_type_urls : List String :=
  ["/cosmos.bank.v1beta1.MsgSend",
   "/cosmos.staking.v1beta1.MsgDelegate",
   "/cosmos.staking.v1beta1.MsgUndelegate",
   "/cosmos.staking.v1beta1.MsgBeginRedelegate",
   "/cosmos.distribution.v1beta1.MsgWithdrawDelegatorReward"]

/-- Claim C9 (amended): an unsupported type_url is rejected with an
unsupported-message-type error naming the type_url, both at encode time and
at signer extraction time; for each supported type, a required key that is
missing from the JSON value (or is present with the wrong type) fails with a
named error identifying the key — except that inside the amount object of
the staking messages (MsgDelegate, MsgUndelegate, MsgBeginRedelegate) a
missing denom or amount key makes the serde_json map indexing panic
("no entry found for key"), a Rust trap rather than a returned error; only a
denom or amount entry that is present with a non-string value yields the
named errors "Missing denom in amount" / "Missing amount value". -/
theorem c9_unsupported_and_missing_keys :
    -- unsupported type_url
    (∀ url v, url ∉ supported_type_urls →
      encode_message_to_protobuf ⟨url, v⟩ =
        .error (.msg ("Unsupported message type: " ++ url)) ∧
      extract_signer_address_from_message ⟨url, v⟩ =
        .error (.msg ("Unsupported message type for signer extraction: " ++ url))) ∧
    -- MsgSend required keys
    (∀ v, (v.getKey "from_address").asStr = none →
      encode_msg_send v = .error (.msg "Missing from_address in MsgSend")) ∧
    (∀ v fa, (v.getKey "from_address").asStr = some fa →
      (v.getKey "to_address").asStr = none →
      encode_msg_send v = .error (.msg "Missing to_address in MsgSend")) ∧
    (∀ v fa ta, (v.getKey "from_address").asStr = some fa →
      (v.getKey "to_address").asStr = some ta →
      (v.getKey "amount").asArr = none →
      encode_msg_send v = .error (.msg "Missing amount array in MsgSend")) ∧
    (∀ v fa ta c, (v.getKey "from_address").asStr = some fa →
      (v.getKey "to_address").asStr = some ta →
      (v.getKey "amount").asArr = some [c] →
      (c.getKey "denom").asStr = none →
      encode_msg_send v = .error (.msg "Missing denom in coin")) ∧
    -- MsgDelegate required keys
    (∀ v, (v.getKey "delegator_address").asStr = none →
      encode_msg_delegate v =
        .error (.msg "Missing delegator_address in MsgDelegate")) ∧
    (∀ v da, (v.getKey "delegator_address").asStr = some da →
      (v.getKey "validator_address").asStr = none →
      encode_msg_delegate v =
        .error (.msg "Missing validator_address in MsgDelegate")) ∧
    (∀ v da va, (v.getKey "delegator_address").asStr = some da →
      (v.getKey "validator_address").asStr = some va →
      (v.getKey "amount").asObj = none →
      encode_msg_delegate v =
        .error (.msg "Missing amount object in MsgDelegate")) ∧
    (∀ v da va kvs, (v.getKey "delegator_address").asStr = some da →
      (v.getKey "validator_address").asStr = some va →
      (v.getKey "amount").asObj = some kvs →
      kvs.find? (fun p => p.1 == "denom") = none →
      encode_msg_delegate v = .error (.panic "no entry found for key")) ∧
    (∀ v da va kvs p, (v.getKey "delegator_address").asStr = some da →
      (v.getKey "validator_address").asStr = some va →
      (v.getKey "amount").asObj = some kvs →
      kvs.find? (fun q => q.1 == "denom") = some p →
      p.2.asStr = none →
      encode_msg_delegate v = .error (.msg "Missing denom in amount")) ∧
    (∀ v da va kvs p d, (v.getKey "delegator_address").asStr = some da →
      (v.getKey "validator_address").asStr = some va →
      (v.getKey "amount").asObj = some kvs →
      kvs.find? (fun q => q.1 == "denom") = some p →
      p.2.asStr = some d →
      kvs.find? (fun q => q.1 == "amount") = none →
      encode_msg_delegate v = .error (.panic "no entry found for key")) ∧
    (∀ v da va kvs p d q, (v.getKey "delegator_address").asStr = some da →
      (v.getKey "validator_address").asStr = some va →
      (v.getKey "amount").asObj = some kvs →
      kvs.find? (fun r => r.1 == "denom") = some p →
      p.2.asStr = some d →
      kvs.find? (fun r => r.1 == "amount") = some q →
      q.2.asStr = none →
      encode_msg_delegate v = .error (.msg "Missing amount value")) ∧
    -- MsgUndelegate required keys
    (∀ v, (v.getKey "delegator_address").asStr = none →
      encode_msg_undelegate v =
        .error (.msg "Missing delegator_address in MsgUndelegate")) ∧
    (∀ v da, (v.getKey "delegator_address").asStr = some da →
      (v.getKey "validator_address").asStr = none →
      encode_msg_undelegate v =
        .error (.msg "Missing validator_address in MsgUndelegate")) ∧
    (∀ v da va, (v.getKey "delegator_address").asStr = some da →
      (v.getKey "validator_address").asStr = some va →
      (v.getKey "amount").asObj = none →
      encode_msg_undelegate v =
        .error (.msg "Missing amount object in MsgUndelegate")) ∧
    (∀ v da va kvs, (v.getKey "delegator_address").asStr = some da →
      (v.getKey "validator_address").asStr = some va →
      (v.getKey "amount").asObj = some kvs →
      kvs.find? (fun p => p.1 == "denom") = none →
      encode_msg_undelegate v = .error (.panic "no entry found for key")) ∧
    -- MsgBeginRedelegate required keys
    (∀ v, (v.getKey "delegator_address").asStr = none →
      encode_msg_begin_redelegate v =
        .error (.msg "Missing delegator_address in MsgBeginRedelegate")) ∧
    (∀ v da, (v.getKey "delegator_address").asStr = some da →
      (v.getKey "validator_src_address").asStr = none →
      encode_msg_begin_redelegate v =
        .error (.msg "Missing validator_src_address in MsgBeginRedelegate")) ∧
    (∀ v da vs, (v.getKey "delegator_address").asStr = some da →
      (v.getKey "validator_src_address").asStr = some vs →
      (v.getKey "validator_dst_address").asStr = none →
      encode_msg_begin_redelegate v =
        .error (.msg "Missing validator_dst_address in MsgBeginRedelegate")) ∧
    (∀ v da vs vd, (v.getKey "delegator_address").asStr = some da →
      (v.getKey "validator_src_address").asStr = some vs →
      (v.getKey "validator_dst_address").asStr = some vd →
      (v.getKey "amount").asObj = none →
      encode_msg_begin_redelegate v =
        .error (.msg "Missing amount object in MsgBeginRedelegate")) ∧
    (∀ v da vs vd kvs, (v.getKey "delegator_address").asStr = some da →
      (v.getKey "validator_src_address").asStr = some vs →
      (v.getKey "validator_dst_address").asStr = some vd →
      (v.getKey "amount").asObj = some kvs →
      kvs.find? (fun p => p.1 == "denom") = none →
      encode_msg_begin_redelegate v =
        .error (.panic "no entry found for key")) ∧
    -- MsgWithdrawDelegatorReward required keys
    (∀ v, (v.getKey "delegator_address").asStr = none →
      encode_msg_withdraw_delegator_reward v =
        .error (.msg "Missing delegator_address in MsgWithdrawDelegatorReward")) ∧
    (∀ v da, (v.getKey "delegator_address").asStr = some da →
      (v.getKey "validator_address").asStr = none →
      encode_msg_withdraw_delegator_reward v =
        .error (.msg "Missing validator_address in MsgWithdrawDelegatorReward")) ∧
    -- signer extraction missing keys
    (∀ v, (v.getKey "from_address").asStr = none →
      extract_signer_address_from_message ⟨"/cosmos.bank.v1beta1.MsgSend", v⟩ =
        .error (.msg "Missing from_address in MsgSend")) ∧
    (∀ v, (v.getKey "delegator_address").asStr = none →
      extract_signer_address_from_message
          ⟨"/cosmos.staking.v1beta1.MsgDelegate", v⟩ =
        .error (.msg "Missing delegator_address in staking/distribution message")) := by
  refine ⟨?_, ?_, ?_, ?_, ?_, ?_, ?_, ?_, ?_, ?_, ?_, ?_, ?_, ?_, ?_, ?_, ?_,
    ?_, ?_, ?_, ?_, ?_, ?_, ?_, ?_⟩
  · intro url v hurl
    rw [supported_type_urls] at hurl
    simp at hurl
    constructor
    · simp [encode_message_to_protobuf, hurl]
    · simp [extract_signer_address_from_message, hurl]
  · intro v h
    simp [encode_msg_send, ofOption, h, exceptBind_err]
  · intro v fa h1 h2
    simp [encode_msg_send, ofOption, h1, h2, exceptBind_ok, exceptBind_err]
  · intro v fa ta h1 h2 h3
    simp [encode_msg_send, ofOption, h1, h2, h3, exceptBind_ok, exceptBind_err]
  · intro v fa ta c h1 h2 h3 h4
    simp [encode_msg_send, ofOption, h1, h2, h3, h4, exceptBind_ok,
      exceptBind_err, List.foldlM_cons]
  · intro v h
    simp [encode_msg_delegate, ofOption, h, exceptBind_err]
  · intro v da h1 h2
    simp [encode_msg_delegate, ofOption, h1, h2, exceptBind_ok, exceptBind_err]
  · intro v da va h1 h2 h3
    simp [encode_msg_delegate, ofOption, h1, h2, h3, exceptBind_ok,
      exceptBind_err]
  · intro v da va kvs h1 h2 h3 h4
    simp [encode_msg_delegate, ofOption, mapIndex, h1, h2, h3, h4,
      exceptBind_ok, exceptBind_err]
  · intro v da va kvs p h1 h2 h3 h4 h5
    simp [encode_msg_delegate, ofOption, mapIndex, h1, h2, h3, h4, h5,
      exceptBind_ok, exceptBind_err]
  · intro v da va kvs p d h1 h2 h3 h4 h5 h6
    simp [encode_msg_delegate, ofOption, mapIndex, h1, h2, h3, h4, h5, h6,
      exceptBind_ok, exceptBind_err]
  · intro v da va kvs p d q h1 h2 h3 h4 h5 h6 h7
    simp [encode_msg_delegate, ofOption, mapIndex, h1, h2, h3, h4, h5, h6, h7,
      exceptBind_ok, exceptBind_err]
  · intro v h
    simp [encode_msg_undelegate, ofOption, h, exceptBind_err]
  · intro v da h1 h2
    simp [encode_msg_undelegate, ofOption, h1, h2, exceptBind_ok, exceptBind_err]
  · intro v da va h1 h2 h3
    simp [encode_msg_undelegate, ofOption, h1, h2, h3, exceptBind_ok,
      exceptBind_err]
  · intro v da va kvs h1 h2 h3 h4
    simp [encode_msg_undelegate, ofOption, mapIndex, h1, h2, h3, h4,
      exceptBind_ok, exceptBind_err]
  · intro v h
    simp [encode_msg_begin_redelegate, ofOption, h, exceptBind_err]
  · intro v da h1 h2
    simp [encode_msg_begin_redelegate, ofOption, h1, h2, exceptBind_ok,
      exceptBind_err]
  · intro v da vs h1 h2 h3
    simp [encode_msg_begin_redelegate, ofOption, h1, h2, h3, exceptBind_ok,
      exceptBind_err]
  · intro v da vs vd h1 h2 h3 h4
    simp [encode_msg_begin_redelegate, ofOption, h1, h2, h3, h4,
      exceptBind_ok, exceptBind_err]
  · intro v da vs vd kvs h1 h2 h3 h4 h5
    simp [encode_msg_begin_redelegate, ofOption, mapIndex, h1, h2, h3, h4, h5,
      exceptBind_ok, exceptBind_err]
  · intro v h
    simp [encode_msg_withdraw_delegator_reward, ofOption, h, exceptBind_err]
  · intro v da h1 h2
    simp [encode_msg_withdraw_delegator_reward, ofOption, h1, h2,
      exceptBind_ok, exceptBind_err]
  · intro v h
    simp [extract_signer_address_from_message, ofOption, h]
  · intro v h
    simp [extract_signer_address_from_message, ofOption, h]

/-- Claim C9 counterexample to the claim as stated: a MsgDelegate whose
amount object lacks the denom key panics ("no entry found for key", a Rust
trap) instead of failing with a named error identifying the missing key. -/
theorem c9_counterexample :
    encode_message_to_protobuf ⟨"/cosmos.staking.v1beta1.MsgDelegate",
        Json.obj [("delegator_address", Json.str "a"),
          ("validator_address", Json.str "b"),
          ("amount", Json.obj [("amount", Json.str "1")])]⟩ =
      .error (.panic "no entry found for key") ∧
    ∀ s, encode_message_to_protobuf ⟨"/cosmos.staking.v1beta1.MsgDelegate",
        Json.obj [("delegator_address", Json.str "a"),
          ("validator_address", Json.str "b"),
          ("amount", Json.obj [("amount", Json.str "1")])]⟩ ≠
      .error (.msg s) := by
  constructor
  · rfl
  · intro s h
    rw [show encode_message_to_protobuf ⟨"/cosmos.staking.v1beta1.MsgDelegate",
        Json.obj [("delegator_address", Json.str "a"),
          ("validator_address", Json.str "b"),
          ("amount", Json.obj [("amount", Json.str "1")])]⟩ =
      .error (.panic "no entry found for key") from rfl] at h
    exact absurd h (by simp)

/-- Claim C9 witness: instantiation of the unsupported-type conjunct. -/
theorem c9_witness :
    encode_message_to_protobuf ⟨"/cosmos.gov.v1beta1.MsgVote", Json.null⟩ =
      .error (.msg ("Unsupported message type: " ++ "/cosmos.gov.v1beta1.MsgVote")) ∧
    extract_signer_address_from_message ⟨"/cosmos.gov.v1beta1.MsgVote", Json.null⟩ =
      .error (.msg ("Unsupported message type for signer extraction: " ++
        "/cosmos.gov.v1beta1.MsgVote")) :=
  c9_unsupported_and_missing_keys.1 "/cosmos.gov.v1beta1.MsgVote" Json.null
    (by decide)

/-! Claim C10: the bytes that are signed describe the transaction that is
broadcast.  A specification-side extractor reads the first two
length-delimited fields of a message, following the field layout in the
spec (SignDoc: body_bytes = 1, auth_info_bytes = 2; Tx: body = 1,
auth_info = 2). -/

/-- Specification-side reader for one length-delimited field: a tag byte,
then a varint length and that many bytes; returns the field number, the
content, and the next cursor. -/
def spec_read_field (bs : List Nat) (pos : Nat) :
    Except String (Nat × List Nat × Nat) :=
  if h : pos < bs.length then
    match read_bytes bs (pos + 1) with
    | .error e => .error e
    | .ok (content, p2) => .ok ((bs.get ⟨pos, h⟩) >>> 3, content, p2)
  else .error "end of input"

/-- Specification-side reader for the first two length-delimited fields. -/
def spec_first_two_fields (bs : List Nat) :
    Except String ((Nat × List Nat) × (Nat × List Nat)) :=
  match spec_read_field bs 0 with
  | .error e => .error e
  | .ok (f1, c1, p1) =>
    match spec_read_field bs p1 with
    | .error e => .error e
    | .ok (f2, c2, _) => .ok ((f1, c1), (f2, c2))

theorem spec_read_field_encLD (bs : List Nat) (pos tag : Nat)
    (content rest : List Nat)
    (hdrop : bs.drop pos = encode_length_delimited tag content ++ rest)
    (hlen : content.length < 2 ^ 64) :
    spec_read_field bs pos =
      .ok (tag >>> 3, content,
        pos + 1 + (encode_varint content.length).length + content.length) := by
  rw [encode_length_delimited, List.cons_append] at hdrop
  have hp : pos < bs.length := pos_lt_of_drop_cons hdrop
  have hb := get_of_drop_cons hdrop hp
  have hdrop1 : bs.drop (pos + 1) =
      encode_varint content.length ++ (content ++ rest) := by
    have h := drop_succ_of_drop_cons hdrop
    rw [h, List.append_assoc]
  have hrb := read_bytes_encode content bs (pos + 1) rest hdrop1 hlen
  rw [spec_read_field, dif_pos hp, hrb]
  simp only [hb]

theorem spec_first_two_fields_encLD (X : List Nat) (t1 t2 : Nat)
    (c1 c2 rest : List Nat)
    (hX : X = encode_length_delimited t1 c1 ++
      (encode_length_delimited t2 c2 ++ rest))
    (h1 : c1.length < 2 ^ 64) (h2 : c2.length < 2 ^ 64) :
    spec_first_two_fields X = .ok ((t1 >>> 3, c1), (t2 >>> 3, c2)) := by
  have hd0 : X.drop 0 = encode_length_delimited t1 c1 ++
      (encode_length_delimited t2 c2 ++ rest) := by simpa using hX
  have hf1 := spec_read_field_encLD X 0 t1 c1 _ hd0 h1
  have hdrop1 : X.drop (0 + (encode_length_delimited t1 c1).length) =
      encode_length_delimited t2 c2 ++ rest := drop_add_of_drop_append hd0
  have hlen1 : (encode_length_delimited t1 c1).length =
      1 + (encode_varint c1.length).length + c1.length := by
    simp [encode_length_delimited]
    omega
  have hd2 : X.drop (0 + 1 + (encode_varint c1.length).length + c1.length) =
      encode_length_delimited t2 c2 ++ rest := by
    rw [← hdrop1]
    congr 1
    omega
  have hf2 := spec_read_field_encLD X _ t2 c2 rest hd2 h2
  rw [spec_first_two_fields, hf1]
  simp only []
  rw [hf2]

/-- Claim C10: whenever create_sign_doc_bytes succeeds, the TxBody bytes in
field 1 and the AuthInfo bytes in field 2 of the produced SignDoc are
byte-identical to the TxBody and AuthInfo bytes in fields 1 and 2 of the Tx
that build_transaction_for_broadcast encodes (and base64-encodes) for the
same transaction and public key, for every signature. -/
theorem c10_sign_and_broadcast_share_body_and_auth
    (t : CosmosTransaction) (pk sig : List Nat) (sd : List Nat)
    (hsd : create_sign_doc_bytes t pk = .ok sd) (hlen : sd.length < 2 ^ 64) :
    ∃ txb body auth,
      build_transaction_for_broadcast t pk sig = .ok (base64Encode txb) ∧
      spec_first_two_fields sd = .ok ((1, body), (2, auth)) ∧
      spec_first_two_fields txb = .ok ((1, body), (2, auth)) := by
  cases hbody : tx_body_bytes_of t with
  | error e =>
    rw [create_sign_doc_bytes, hbody] at hsd
    simp [exceptBind_err] at hsd
  | ok body =>
    have hsd' : sd = encode_length_delimited 0x0a body ++
        (encode_length_delimited 0x12 (auth_info_bytes_of t pk) ++
          (encode_string 0x1a t.chain_id ++
            encode_uint64 0x20 t.account_number)) := by
      rw [create_sign_doc_bytes, hbody] at hsd
      simp only [exceptBind_ok, exceptPure, Except.ok.injEq] at hsd
      rw [← hsd]
      simp [List.append_assoc]
    have hb1 : body.length < 2 ^ 64 := by
      have h := congrArg List.length hsd'
      simp [encode_length_delimited] at h
      omega
    have hb2 : (auth_info_bytes_of t pk).length < 2 ^ 64 := by
      have h := congrArg List.length hsd'
      simp [encode_length_delimited] at h
      omega
    refine ⟨encode_length_delimited 0x0a body ++
        encode_length_delimited 0x12 (auth_info_bytes_of t pk) ++
        encode_length_delimited 0x1a sig, body, auth_info_bytes_of t pk,
      ?_, ?_, ?_⟩
    · rw [build_transaction_for_broadcast, build_tx_bytes, hbody]
      rfl
    · have := spec_first_two_fields_encLD sd 0x0a 0x12 body
        (auth_info_bytes_of t pk)
        (encode_string 0x1a t.chain_id ++ encode_uint64 0x20 t.account_number)
        hsd' hb1 hb2
      rw [this]
      norm_num [Nat.shiftRight_eq_div_pow]
    · have := spec_first_two_fields_encLD
        (encode_length_delimited 0x0a body ++
          encode_length_delimited 0x12 (auth_info_bytes_of t pk) ++
          encode_length_delimited 0x1a sig) 0x0a 0x12 body
        (auth_info_bytes_of t pk) (encode_length_delimited 0x1a sig)
        (by rw [List.append_assoc]) hb1 hb2
      rw [this]
      norm_num [Nat.shiftRight_eq_div_pow]

theorem encode_varint_lt128 {v : Nat} (hv : v < 128) : encode_varint v = [v] := by
  rw [encode_varint, if_neg (by omega)]

/-- Claim C10 witness: the empty transaction with an empty public key and a
one-byte signature. -/
theorem c10_witness :
    ∃ txb body auth,
      build_transaction_for_broadcast ⟨[], [], 0, "", "", 0, 0⟩ [] [1] =
        .ok (base64Encode txb) ∧
      spec_first_two_fields
          [10, 4, 18, 0, 24, 0, 18, 57, 10, 47, 10, 37, 10, 31, 47, 99, 111,
           115, 109, 111, 115, 46, 99, 114, 121, 112, 116, 111, 46, 115, 101,
           99, 112, 50, 53, 54, 107, 49, 46, 80, 117, 98, 75, 101, 121, 18, 2,
           10, 0, 18, 4, 10, 2, 8, 1, 24, 0, 18, 6, 16, 0, 26, 0, 34, 0, 26,
           0, 32, 0] = .ok ((1, body), (2, auth)) ∧
      spec_first_two_fields txb = .ok ((1, body), (2, auth)) :=
  c10_sign_and_broadcast_share_body_and_auth ⟨[], [], 0, "", "", 0, 0⟩ [] [1]
    [10, 4, 18, 0, 24, 0, 18, 57, 10, 47, 10, 37, 10, 31, 47, 99, 111, 115,
     109, 111, 115, 46, 99, 114, 121, 112, 116, 111, 46, 115, 101, 99, 112,
     50, 53, 54, 107, 49, 46, 80, 117, 98, 75, 101, 121, 18, 2, 10, 0, 18, 4,
     10, 2, 8, 1, 24, 0, 18, 6, 16, 0, 26, 0, 34, 0, 26, 0, 32, 0]
    (by simp [create_sign_doc_bytes, tx_body_bytes_of, auth_info_bytes_of,
      encode_string, encode_length_delimited, encode_uint64, strBytes,
      utf8Char, encode_varint_lt128, exceptBind_ok, exceptPure])
    (by decide)

/-! Claim C5: cycle-cost fail-fast in RpcClient::call_internal
(rpc_client.rs lines 100-218).  External effects are passed as parameters:
the serialized payload body, the parsed URL host, the cycles attached to the
message, and the outcome the transport would produce.  The second component
of the result counts http_request invocations. -/

/-- The RpcClientConfig fields call_internal consults for control flow
(lines 39-48): the cost calculator is modelled by the pair it returns for
this request. -/
structure RpcClientConfig where
  request_cost : Option (Nat × Nat)
  host_validator : Option (String → Bool)
  is_demo_active : Bool

/-- Embeds call_internal (lines 100-218).  serialized models
serde_json::to_vec(payload); parsed_host models Url::parse plus host_str
(with their ParseError results); transport models the awaited http_request
together with the decompress / utf8 handling of the response body.  The
returned count is the number of http_request calls made. -/
def call_internal (config : RpcClientConfig)
    (serialized : Except String (List Nat))
    (parsed_host : Except RpcError String) (cycles_available : Nat)
    (transport : Except RpcError (List Nat)) :
    Except RpcError (List Nat) × Nat :=
  match serialized with
  | .error e => (.error (.parseError e), 0)
  | .ok _body =>
    let costs := config.request_cost.getD (0, 0)
    match parsed_host with
    | .error e => (.error e, 0)
    | .ok host =>
      let proceed := fun (_ : Unit) =>
        if ¬ config.is_demo_active ∧ cycles_available < costs.2 then
          (.error (.text ("Insufficient cycles: available " ++
            toString cycles_available ++ ", required " ++ toString costs.2 ++
            " (with collateral).")), 0)
        else
          match transport with
          | .ok bytes => ((.ok bytes : Except RpcError (List Nat)), 1)
          | .error e => (.error e, 1)
      match config.host_validator with
      | some is_allowed =>
        if ¬ is_allowed host then
          (.error (.text ("Disallowed RPC service host: " ++ host)), 0)
        else proceed ()
      | none => proceed ()

/-- Claim C5: with cost accounting enabled (demo mode off) and the available
cycle budget strictly below the computed cost with collateral, call_internal
returns the insufficient-cycles error (the InsufficientResources case of the
spec's error taxonomy) and the count of http_request invocations is zero —
no network call is made, whatever the transport would have returned. -/
theorem c5_cost_fail_fast (config : RpcClientConfig) (body : List Nat)
    (host : String) (cycles_available cost collateral : Nat)
    (transport : Except RpcError (List Nat))
    (hdemo : config.is_demo_active = false)
    (hcost : config.request_cost = some (cost, collateral))
    (hbudget : cycles_available < collateral)
    (hhost : ∀ f, config.host_validator = some f → f host = true) :
    call_internal config (.ok body) (.ok host) cycles_available transport =
      (.error (.text ("Insufficient cycles: available " ++
        toString cycles_available ++ ", required " ++ toString collateral ++
        " (with collateral).")), 0) := by
  rw [call_internal.eq_def]
  simp only [hcost, Option.getD]
  cases hv : config.host_validator with
  | none =>
    simp only []
    rw [if_pos (by simp [hdemo, hbudget])]
  | some is_allowed =>
    have := hhost is_allowed hv
    simp only []
    rw [if_neg (by simp [this])]
    rw [if_pos (by simp [hdemo, hbudget])]

/-- Claim C5 witness: a concrete configuration with a 10-cycle collateral
cost and a 3-cycle budget; the transport would have succeeded but is never
consulted. -/
theorem c5_witness :
    call_internal ⟨some (5, 10), none, false⟩ (.ok [1, 2]) (.ok "h") 3
        (.ok [7]) =
      (.error (.text ("Insufficient cycles: available " ++ toString 3 ++
        ", required " ++ toString 10 ++ " (with collateral).")), 0) :=
  c5_cost_fail_fast ⟨some (5, 10), none, false⟩ [1, 2] "h" 3 5 10 (.ok [7])
    rfl rfl (by decide) (fun f hf => by simp at hf)

/-! Claim C2: consensus reduction of one logical call.  The grouping itself
lives in rpc_client/multi_call.rs, which is not part of the source tree, so
reduce is modelled from the spec; process_result (rpc_client.rs lines
449-474) and its use in call (lines 231-250) are embedded from the source. -/

deriving instance DecidableEq for Except

/-- MultiCallError, as consumed by process_result. -/
inductive MultiCallError (T : Type) where
  | consistentError : RpcError → MultiCallError T
  | inconsistentResults : List (RpcApi × Except RpcError T) → MultiCallError T

/-- Modelled from the spec: MultiCallResults::reduce of the missing
rpc_client/multi_call.rs, following spec section 4.4: if every provider
produced the same successful value the verdict is Consistent(value); if
every provider produced a Failure and all failures are equal the verdict is
ConsistentError; otherwise the verdict is Inconsistent carrying the full
(provider, outcome) list. -/
def reduce {T : Type} [DecidableEq T]
    (results : List (RpcApi × Except RpcError T)) :
    Except (MultiCallError T) T :=
  match results with
  | [] => .error (.inconsistentResults [])
  | (_, r0) :: _ =>
    if ∀ pr ∈ results, pr.2 = r0 then
      match r0 with
      | .ok v => .ok v
      | .error e => .error (.consistentError e)
    else .error (.inconsistentResults results)

/-- serde_json::to_string of a Vec byte payload (compact JSON array). -/
def serializeJsonBytes (bs : List Nat) : String :=
  "[" ++ String.intercalate "," (bs.map toString) ++ "]"

/-- The per-provider mapping inside process_result's InconsistentResults arm
(lines 454-469): Ok((provider, to_string(result?)?)) collected into
Result<Vec<_>, RpcError> — the first provider whose outcome is a failure
short-circuits the collection with that failure. -/
def serialize_each {T : Type} (serialize : T → String)
    (rs : List (RpcApi × Except RpcError T)) :
    Except RpcError (List (RpcApi × String)) :=
  rs.mapM (fun pr =>
    match pr.2 with
    | .ok v => (.ok (pr.1, serialize v) : Except RpcError (RpcApi × String))
    | .error e => .error e)

/-- Embeds RpcClient::process_result (rpc_client.rs lines 449-474). -/
def process_result {T : Type} (serialize : T → String)
    (result : Except (MultiCallError T) T) : Except RpcError T :=
  match result with
  | .ok value => .ok value
  | .error (.consistentError err) => .error err
  | .error (.inconsistentResults multi_call_results) =>
    match serialize_each serialize multi_call_results with
    | .ok results => .error (.inconsistentResponse results)
    | .error e => .error e

/-- First failure among the outcomes, in provider order. -/
def first_failure {T : Type} (rs : List (RpcApi × Except RpcError T)) :
    Option RpcError :=
  rs.findSome? (fun pr =>
    match pr.2 with
    | .error e => some e
    | .ok _ => none)

/-- The serialized entry for a successful outcome (used only under an
all-success hypothesis). -/
def serialize_value {T : Type} (serialize : T → String) :
    Except RpcError T → String
  | .ok v => serialize v
  | .error _ => ""

theorem serialize_each_err {T : Type} (serialize : T → String) :
    ∀ (rs : List (RpcApi × Except RpcError T)) (e : RpcError),
      first_failure rs = some e → serialize_each serialize rs = .error e := by
  intro rs
  induction rs with
  | nil => intro e h; simp [first_failure] at h
  | cons hd tl ih =>
    intro e h
    rw [first_failure, List.findSome?_cons] at h
    rw [serialize_each, List.mapM_cons]
    cases h2 : hd.2 with
    | error er =>
      rw [h2] at h
      simp only [Option.some.injEq] at h
      subst h
      simp only [h2]
      rfl
    | ok v =>
      rw [h2] at h
      simp only [] at h
      have htl := ih e h
      rw [serialize_each] at htl
      simp only [h2]
      rw [exceptBind_ok, htl, exceptBind_err]

theorem serialize_each_ok {T : Type} (serialize : T → String) :
    ∀ (rs : List (RpcApi × Except RpcError T)),
      (∀ pr ∈ rs, ∃ v, pr.2 = .ok v) →
      serialize_each serialize rs =
        .ok (rs.map (fun pr => (pr.1, serialize_value serialize pr.2))) := by
  intro rs
  induction rs with
  | nil => intro _; rfl
  | cons hd tl ih =>
    intro h
    obtain ⟨v, hv⟩ := h hd (by simp)
    have htl := ih (fun pr hpr => h pr (by simp [hpr]))
    rw [serialize_each, List.mapM_cons]
    rw [serialize_each] at htl
    simp only [hv]
    rw [exceptBind_ok, htl, exceptBind_ok]
    simp only [List.map_cons, exceptPure, serialize_value, hv]

/-- Claim C2 (amended): for a non-empty provider set, if every provider
returned the same successful value the call yields it; if every provider
returned one and the same failure the call yields that failure; if all
providers succeeded but with differing values the call yields an
InconsistentResponse error carrying the full per-provider (provider,
serialized value) list; but if the outcomes are inconsistent and at least
one provider failed, the call yields the first failing provider's error
instead of an InconsistentResponse. -/
theorem c2_consensus_reduction {T : Type} [DecidableEq T]
    (serialize : T → String)
    (results : List (RpcApi × Except RpcError T)) (hne : results ≠ []) :
    (∀ v, (∀ pr ∈ results, pr.2 = .ok v) →
      process_result serialize (reduce results) = .ok v) ∧
    (∀ e, (∀ pr ∈ results, pr.2 = .error e) →
      process_result serialize (reduce results) = .error e) ∧
    ((∀ pr ∈ results, ∃ v, pr.2 = .ok v) →
      (¬ ∀ pr ∈ results, pr.2 = (results.head hne).2) →
      process_result serialize (reduce results) =
        .error (.inconsistentResponse (results.map
          (fun pr => (pr.1, serialize_value serialize pr.2))))) ∧
    (∀ e, (¬ ∀ pr ∈ results, pr.2 = (results.head hne).2) →
      first_failure results = some e →
      process_result serialize (reduce results) = .error e) := by
  cases results with
  | nil => exact absurd rfl hne
  | cons hd tl =>
    obtain ⟨p0, r0⟩ := hd
    refine ⟨?_, ?_, ?_, ?_⟩
    · intro v hall
      have h0 : r0 = .ok v := hall (p0, r0) (by simp)
      rw [reduce.eq_def]
      simp only []
      rw [if_pos (by intro pr hpr; rw [hall pr hpr, h0])]
      rw [h0]
      rfl
    · intro e hall
      have h0 : r0 = .error e := hall (p0, r0) (by simp)
      rw [reduce.eq_def]
      simp only []
      rw [if_pos (by intro pr hpr; rw [hall pr hpr, h0])]
      rw [h0]
      rfl
    · intro hok hdiff
      rw [reduce.eq_def]
      simp only []
      rw [if_neg (by simpa using hdiff)]
      rw [process_result]
      rw [serialize_each_ok serialize _ hok]
    · intro e hdiff hfail
      rw [reduce.eq_def]
      simp only []
      rw [if_neg (by simpa using hdiff)]
      rw [process_result]
      rw [serialize_each_err serialize _ e hfail]

/-- Claim C2 witness: three providers with identical bytes reduce to
Consistent. -/
theorem c2_witness :
    process_result serializeJsonBytes
        (reduce [(⟨"a", []⟩, .ok [1, 2]), (⟨"b", []⟩, .ok [1, 2]),
          (⟨"c", []⟩, .ok [1, 2])]) = .ok [1, 2] :=
  (c2_consensus_reduction serializeJsonBytes
    [(⟨"a", []⟩, .ok [1, 2]), (⟨"b", []⟩, .ok [1, 2]), (⟨"c", []⟩, .ok [1, 2])]
    (by simp)).1 [1, 2] (by decide)

/-- Claim C2 counterexample to the claim as stated: two providers, one
success and one failure — an inconsistent mix — yield the failing
provider's error, not an InconsistentResponse carrying the per-provider
list. -/
theorem c2_counterexample :
    process_result serializeJsonBytes
        (reduce [(⟨"a", []⟩, .ok [1]), (⟨"b", []⟩, .error (.text "boom"))]) =
      .error (.text "boom") ∧
    (match process_result serializeJsonBytes
        (reduce [(⟨"a", []⟩, .ok [1]), (⟨"b", []⟩, .error (.text "boom"))]) with
      | .error (.inconsistentResponse _) => true
      | _ => false) = false := by
  constructor
  · rfl
  · rfl

/-! Claim C4: parse_account_info_from_abci (cosmos_transaction_utils.rs
lines 72-237).  The base64 decode of the response string (lines 74-76) is an
external library call mapping response strings onto byte vectors; the
parser is embedded over the decoded bytes. -/

/-- The BaseAccount field loop (lines 175-216): walks fields, skipping
address (1) and pub_key (2) when length-delimited, reading account_number
(3) and sequence (4) when varint; unknown fields are skipped by wire type;
a field whose wire type does not match consumes only its tag byte. -/
def ba_loop (d : List Nat) (cursor acct seq : Nat) :
    Except String (Nat × Nat) :=
  if h : cursor < d.length then
    let tag := d.get ⟨cursor, h⟩
    let f := tag >>> 3
    let w := tag &&& 0x07
    if f = 1 then
      if w = 2 then
        match hb : read_bytes d (cursor + 1) with
        | .error e => .error e
        | .ok (_, c2) => ba_loop d c2 acct seq
      else ba_loop d (cursor + 1) acct seq
    else if f = 2 then
      if w = 2 then
        match hb : read_bytes d (cursor + 1) with
        | .error e => .error e
        | .ok (_, c2) => ba_loop d c2 acct seq
      else ba_loop d (cursor + 1) acct seq
    else if f = 3 then
      if w = 0 then
        match hv : read_varint d (cursor + 1) with
        | .error e => .error e
        | .ok (v, c2) => ba_loop d c2 v seq
      else ba_loop d (cursor + 1) acct seq
    else if f = 4 then
      if w = 0 then
        match hv : read_varint d (cursor + 1) with
        | .error e => .error e
        | .ok (v, c2) => ba_loop d c2 acct v
      else ba_loop d (cursor + 1) acct seq
    else
      if w = 2 then
        match hb : read_bytes d (cursor + 1) with
        | .error e => .error e
        | .ok (_, c2) => ba_loop d c2 acct seq
      else if w = 0 then
        match hv : read_varint d (cursor + 1) with
        | .error e => .error e
        | .ok (_, c2) => ba_loop d c2 acct seq
      else ba_loop d (cursor + 1) acct seq
  else .ok (acct, seq)
termination_by d.length - cursor
decreasing_by
  all_goals first
  | (have h9 := read_bytes_lt d (cursor + 1) _ _ hb; omega)
  | (have h9 := read_varint_lt d (cursor + 1) _ _ hv; omega)
  | omega

/-- The BaseAccount block (lines 170-223): run the field loop, then reject
account_number 0. -/
def parse_base_account (base_account_data : List Nat) :
    Except String (Nat × Nat) :=
  match ba_loop base_account_data 0 0 0 with
  | .error e => .error e
  | .ok (account_number, sequence) =>
    if account_number = 0 then
      .error "Account does not exist (account_number is 0)"
    else .ok (account_number, sequence)

/-- ASCII bytes of "BaseAccount", the suffix the type_url must carry. -/
def baSuffix : List Nat := strBytes "BaseAccount"

/-- The Any message loop (lines 139-167): field 1 is the type_url (checked
to end with "BaseAccount"; the source formats the offending type_url into
the error, modelled here by the fixed message prefix), field 2 the value;
other fields are skipped by wire type. -/
def parse_any_loop (any_bytes : List Nat) (cursor : Nat)
    (base_account_bytes : Option (List Nat)) :
    Except String (Option (List Nat)) :=
  if h : cursor < any_bytes.length then
    let tag := any_bytes.get ⟨cursor, h⟩
    let f := tag >>> 3
    let w := tag &&& 0x07
    if f = 1 ∧ w = 2 then
      match hb : read_bytes any_bytes (cursor + 1) with
      | .error e => .error e
      | .ok (type_url_bytes, c2) =>
        if baSuffix.isSuffixOf type_url_bytes then
          parse_any_loop any_bytes c2 base_account_bytes
        else .error "Unexpected account type"
    else if f = 2 ∧ w = 2 then
      match hb : read_bytes any_bytes (cursor + 1) with
      | .error e => .error e
      | .ok (v, c2) => parse_any_loop any_bytes c2 (some v)
    else if w = 2 then
      match hb : read_bytes any_bytes (cursor + 1) with
      | .error e => .error e
      | .ok (_, c2) => parse_any_loop any_bytes c2 base_account_bytes
    else if w = 0 then
      match hv : read_varint any_bytes (cursor + 1) with
      | .error e => .error e
      | .ok (_, c2) => parse_any_loop any_bytes c2 base_account_bytes
    else .error "Unsupported wire type in Any message"
  else .ok base_account_bytes
termination_by any_bytes.length - cursor
decreasing_by
  all_goals first
  | (have h9 := read_bytes_lt any_bytes (cursor + 1) _ _ hb; omega)
  | (have h9 := read_varint_lt any_bytes (cursor + 1) _ _ hv; omega)

/-- The QueryAccountResponse loop (lines 119-234): field 1 is the account
Any; after parsing the Any, a present value is parsed as BaseAccount and
returned, otherwise the loop continues; other fields are skipped by wire
type; reaching the end of input yields the no-valid-account error. -/
def parse_qar_loop (decoded : List Nat) (cursor : Nat) :
    Except String (Nat × Nat) :=
  if h : cursor < decoded.length then
    let tag := decoded.get ⟨cursor, h⟩
    let f := tag >>> 3
    let w := tag &&& 0x07
    if f = 1 ∧ w = 2 then
      match hb : read_bytes decoded (cursor + 1) with
      | .error e => .error e
      | .ok (any_bytes, c2) =>
        match parse_any_loop any_bytes 0 none with
        | .error e => .error e
        | .ok (some base_account_data) => parse_base_account base_account_data
        | .ok none => parse_qar_loop decoded c2
    else if w = 2 then
      match hb : read_bytes decoded (cursor + 1) with
      | .error e => .error e
      | .ok (_, c2) => parse_qar_loop decoded c2
    else if w = 0 then
      match hv : read_varint decoded (cursor + 1) with
      | .error e => .error e
      | .ok (_, c2) => parse_qar_loop decoded c2
    else .error "Unsupported wire type in QueryAccountResponse"
  else .error "No valid account found in response"
termination_by decoded.length - cursor
decreasing_by
  all_goals first
  | (have h9 := read_bytes_lt decoded (cursor + 1) _ _ hb; omega)
  | (have h9 := read_varint_lt decoded (cursor + 1) _ _ hv; omega)

/-- Embeds parse_account_info_from_abci, applied to the base64-decoded
response bytes. -/
def parse_account_info_from_abci (decoded : List Nat) :
    Except String (Nat × Nat) :=
  parse_qar_loop decoded 0

/-! Step lemmas for the parser loops over encoded fields. -/

theorem ba_loop_end (d : List Nat) (cursor acct seq : Nat)
    (h : d.length ≤ cursor) : ba_loop d cursor acct seq = .ok (acct, seq) := by
  rw [ba_loop.eq_def, dif_neg (by omega)]

theorem ba_loop_step_ld (d : List Nat) (cursor acct seq tag : Nat)
    (bs rest : List Nat) (htag : tag = 0x0a ∨ tag = 0x12)
    (hd : d.drop cursor = tag :: (encode_varint bs.length ++ (bs ++ rest)))
    (hlen : bs.length < 2 ^ 64) :
    ba_loop d cursor acct seq =
      ba_loop d (cursor + 1 + (encode_varint bs.length).length + bs.length)
        acct seq := by
  have hp := pos_lt_of_drop_cons hd
  have hbyte := get_of_drop_cons hd hp
  have hdrop1 : d.drop (cursor + 1) = encode_varint bs.length ++ (bs ++ rest) :=
    drop_succ_of_drop_cons hd
  have hrb := read_bytes_encode bs d (cursor + 1) rest hdrop1 hlen
  rcases htag with rfl | rfl
  · rw [ba_loop.eq_def, dif_pos hp]
    simp only [hbyte]
    rw [if_pos (show ((0x0a : Nat) >>> 3 = 1) from by decide),
      if_pos (show ((0x0a : Nat) &&& 0x07 = 2) from by decide), hrb]
  · rw [ba_loop.eq_def, dif_pos hp]
    simp only [hbyte]
    rw [if_neg (show ¬ ((0x12 : Nat) >>> 3 = 1) from by decide),
      if_pos (show ((0x12 : Nat) >>> 3 = 2) from by decide),
      if_pos (show ((0x12 : Nat) &&& 0x07 = 2) from by decide), hrb]

theorem ba_loop_step_acct (d : List Nat) (cursor acct seq v : Nat)
    (rest : List Nat)
    (hd : d.drop cursor = 0x18 :: (encode_varint v ++ rest))
    (hv : v < 2 ^ 64) :
    ba_loop d cursor acct seq =
      ba_loop d (cursor + 1 + (encode_varint v).length) v seq := by
  have hp := pos_lt_of_drop_cons hd
  have hbyte := get_of_drop_cons hd hp
  have hdrop1 : d.drop (cursor + 1) = encode_varint v ++ rest :=
    drop_succ_of_drop_cons hd
  have hrv := read_varint_encode v d (cursor + 1) rest hdrop1 hv
  rw [ba_loop.eq_def, dif_pos hp]
  simp only [hbyte]
  rw [if_neg (show ¬ ((0x18 : Nat) >>> 3 = 1) from by decide),
    if_neg (show ¬ ((0x18 : Nat) >>> 3 = 2) from by decide),
    if_pos (show ((0x18 : Nat) >>> 3 = 3) from by decide),
    if_pos (show ((0x18 : Nat) &&& 0x07 = 0) from by decide), hrv]

theorem ba_loop_step_seq (d : List Nat) (cursor acct seq v : Nat)
    (rest : List Nat)
    (hd : d.drop cursor = 0x20 :: (encode_varint v ++ rest))
    (hv : v < 2 ^ 64) :
    ba_loop d cursor acct seq =
      ba_loop d (cursor + 1 + (encode_varint v).length) acct v := by
  have hp := pos_lt_of_drop_cons hd
  have hbyte := get_of_drop_cons hd hp
  have hdrop1 : d.drop (cursor + 1) = encode_varint v ++ rest :=
    drop_succ_of_drop_cons hd
  have hrv := read_varint_encode v d (cursor + 1) rest hdrop1 hv
  rw [ba_loop.eq_def, dif_pos hp]
  simp only [hbyte]
  rw [if_neg (show ¬ ((0x20 : Nat) >>> 3 = 1) from by decide),
    if_neg (show ¬ ((0x20 : Nat) >>> 3 = 2) from by decide),
    if_neg (show ¬ ((0x20 : Nat) >>> 3 = 3) from by decide),
    if_pos (show ((0x20 : Nat) >>> 3 = 4) from by decide),
    if_pos (show ((0x20 : Nat) &&& 0x07 = 0) from by decide), hrv]

theorem any_loop_end (ab : List Nat) (cursor : Nat)
    (bab : Option (List Nat)) (h : ab.length ≤ cursor) :
    parse_any_loop ab cursor bab = .ok bab := by
  rw [parse_any_loop.eq_def, dif_neg (by omega)]

theorem any_loop_step_typeurl (ab : List Nat) (cursor : Nat)
    (bab : Option (List Nat)) (tu rest : List Nat)
    (hd : ab.drop cursor = 0x0a :: (encode_varint tu.length ++ (tu ++ rest)))
    (hlen : tu.length < 2 ^ 64)
    (hsuf : baSuffix.isSuffixOf tu = true) :
    parse_any_loop ab cursor bab =
      parse_any_loop ab (cursor + 1 + (encode_varint tu.length).length +
        tu.length) bab := by
  have hp := pos_lt_of_drop_cons hd
  have hbyte := get_of_drop_cons hd hp
  have hdrop1 : ab.drop (cursor + 1) = encode_varint tu.length ++ (tu ++ rest) :=
    drop_succ_of_drop_cons hd
  have hrb := read_bytes_encode tu ab (cursor + 1) rest hdrop1 hlen
  rw [parse_any_loop.eq_def, dif_pos hp]
  simp only [hbyte]
  rw [if_pos (show ((0x0a : Nat) >>> 3 = 1 ∧ (0x0a : Nat) &&& 0x07 = 2)
    from by decide), hrb]
  simp only [hsuf, if_true]

theorem any_loop_step_value (ab : List Nat) (cursor : Nat)
    (bab : Option (List Nat)) (v rest : List Nat)
    (hd : ab.drop cursor = 0x12 :: (encode_varint v.length ++ (v ++ rest)))
    (hlen : v.length < 2 ^ 64) :
    parse_any_loop ab cursor bab =
      parse_any_loop ab (cursor + 1 + (encode_varint v.length).length +
        v.length) (some v) := by
  have hp := pos_lt_of_drop_cons hd
  have hbyte := get_of_drop_cons hd hp
  have hdrop1 : ab.drop (cursor + 1) = encode_varint v.length ++ (v ++ rest) :=
    drop_succ_of_drop_cons hd
  have hrb := read_bytes_encode v ab (cursor + 1) rest hdrop1 hlen
  rw [parse_any_loop.eq_def, dif_pos hp]
  simp only [hbyte]
  rw [if_neg (show ¬ ((0x12 : Nat) >>> 3 = 1 ∧ (0x12 : Nat) &&& 0x07 = 2)
      from by decide),
    if_pos (show ((0x12 : Nat) >>> 3 = 2 ∧ (0x12 : Nat) &&& 0x07 = 2)
      from by decide), hrb]

theorem qar_loop_end (decoded : List Nat) (cursor : Nat)
    (h : decoded.length ≤ cursor) :
    parse_qar_loop decoded cursor = .error "No valid account found in response" := by
  rw [parse_qar_loop.eq_def, dif_neg (by omega)]

theorem qar_loop_step_account (decoded : List Nat) (cursor : Nat)
    (ab rest : List Nat)
    (hd : decoded.drop cursor =
      0x0a :: (encode_varint ab.length ++ (ab ++ rest)))
    (hlen : ab.length < 2 ^ 64) :
    parse_qar_loop decoded cursor =
      match parse_any_loop ab 0 none with
      | .error e => .error e
      | .ok (some base_account_data) => parse_base_account base_account_data
      | .ok none =>
        parse_qar_loop decoded
          (cursor + 1 + (encode_varint ab.length).length + ab.length) := by
  have hp := pos_lt_of_drop_cons hd
  have hbyte := get_of_drop_cons hd hp
  have hdrop1 : decoded.drop (cursor + 1) =
      encode_varint ab.length ++ (ab ++ rest) := drop_succ_of_drop_cons hd
  have hrb := read_bytes_encode ab decoded (cursor + 1) rest hdrop1 hlen
  rw [parse_qar_loop.eq_def, dif_pos hp]
  simp only [hbyte]
  rw [if_pos (show ((0x0a : Nat) >>> 3 = 1 ∧ (0x0a : Nat) &&& 0x07 = 2)
    from by decide), hrb]

/-- Values below 2 ^ (7 * (k + 1)) encode in at most k + 1 varint bytes. -/
theorem encode_varint_length_le :
    ∀ (k v : Nat), v < 2 ^ (7 * (k + 1)) → (encode_varint v).length ≤ k + 1 := by
  intro k
  induction k with
  | zero =>
    intro v hv
    norm_num at hv
    rw [encode_varint, if_neg (by omega)]
    simp
  | succ k ih =>
    intro v hv
    rw [encode_varint]
    split
    · rename_i h
      simp only [List.length_cons]
      have hlt : v >>> 7 < 2 ^ (7 * (k + 1)) := by
        rw [Nat.shiftRight_eq_div_pow]
        rw [Nat.div_lt_iff_lt_mul (by norm_num)]
        calc v < 2 ^ (7 * (k + 2)) := hv
          _ = 2 ^ (7 * (k + 1)) * 2 ^ 7 := by
              rw [show 7 * (k + 2) = 7 * (k + 1) + 7 from by ring, pow_add]
      have := ih (v >>> 7) hlt
      omega
    · simp

/-! Well-formed inputs for the account parser: the prost message
declarations of cosmos-utils/src/lib.rs (lines 43-59) fix the field tags;
their derived encoders live in the external prost crate. -/

/-- BaseAccount as declared with prost field tags in cosmos-utils
(address = 1, pub_key = 2, account_number = 3, sequence = 4).  The address
is kept as its UTF-8 bytes and the pub_key as its encoded Any bytes. -/
structure BaseAccountData where
  address : List Nat
  pub_key : Option (List Nat)
  account_number : Nat
  sequence : Nat

/-- Modelled from the spec: the protobuf encoding of a BaseAccount produced
by the external prost encoder for the declarations in cosmos-utils
(lines 49-59); prost skips fields holding their default value. -/
def encodeBaseAccount (ba : BaseAccountData) : List Nat :=
  (if ba.address = [] then [] else encode_length_delimited 0x0a ba.address) ++
  (match ba.pub_key with
   | some pb => encode_length_delimited 0x12 pb
   | none => []) ++
  (if ba.account_number = 0 then [] else
    encode_uint64 0x18 ba.account_number) ++
  (if ba.sequence = 0 then [] else encode_uint64 0x20 ba.sequence)

/-- Modelled from the spec: the Any wrapping of a BaseAccount with the
canonical type_url (spec section 4.2); the value bytes are skipped when
empty (prost bytes field default). -/
def encodeAccountAny (ba : BaseAccountData) : List Nat :=
  encode_string 0x0a "/cosmos.auth.v1beta1.BaseAccount" ++
  (if encodeBaseAccount ba = [] then [] else
    encode_length_delimited 0x12 (encodeBaseAccount ba))

/-- Modelled from the spec: QueryAccountResponse with its optional account
Any in field 1 (cosmos-utils lines 43-47); an absent account encodes to no
bytes. -/
def encodeQueryAccountResponse (account : Option BaseAccountData) : List Nat :=
  match account with
  | none => []
  | some ba => encode_length_delimited 0x0a (encodeAccountAny ba)

theorem ba_consume_addr (d : List Nat) (cursor acct seq : Nat)
    (addr rest : List Nat) (hlen : addr.length < 2 ^ 64)
    (hd : d.drop cursor =
      (if addr = [] then [] else encode_length_delimited 0x0a addr) ++ rest) :
    ∃ c2, d.drop c2 = rest ∧
      ba_loop d cursor acct seq = ba_loop d c2 acct seq := by
  by_cases ha : addr = []
  · exact ⟨cursor, by simpa [ha] using hd, rfl⟩
  · rw [if_neg ha] at hd
    refine ⟨cursor + 1 + (encode_varint addr.length).length + addr.length,
      ?_, ?_⟩
    · have h2 := drop_add_of_drop_append hd
      rw [← h2]
      congr 1
      simp [encode_length_delimited]
      omega
    · apply ba_loop_step_ld d cursor acct seq 0x0a addr rest (Or.inl rfl)
        ?_ hlen
      rw [encode_length_delimited, List.cons_append, List.append_assoc] at hd
      exact hd

theorem ba_consume_pubkey (d : List Nat) (cursor acct seq : Nat)
    (pk : Option (List Nat)) (rest : List Nat)
    (hd : d.drop cursor =
      (match pk with
       | some pb => encode_length_delimited 0x12 pb
       | none => []) ++ rest)
    (hlen : ∀ pb, pk = some pb → pb.length < 2 ^ 64) :
    ∃ c2, d.drop c2 = rest ∧
      ba_loop d cursor acct seq = ba_loop d c2 acct seq := by
  cases pk with
  | none => exact ⟨cursor, by simpa using hd, rfl⟩
  | some pb =>
    simp only [] at hd
    refine ⟨cursor + 1 + (encode_varint pb.length).length + pb.length, ?_, ?_⟩
    · have h2 := drop_add_of_drop_append hd
      rw [← h2]
      congr 1
      simp [encode_length_delimited]
      omega
    · apply ba_loop_step_ld d cursor acct seq 0x12 pb rest (Or.inr rfl)
        ?_ (hlen pb rfl)
      rw [encode_length_delimited, List.cons_append, List.append_assoc] at hd
      exact hd

theorem ba_consume_acct (d : List Nat) (cursor seq v : Nat)
    (rest : List Nat) (hv : v < 2 ^ 64)
    (hd : d.drop cursor =
      (if v = 0 then [] else encode_uint64 0x18 v) ++ rest) :
    ∃ c2, d.drop c2 = rest ∧ ba_loop d cursor 0 seq = ba_loop d c2 v seq := by
  by_cases h0 : v = 0
  · subst h0
    exact ⟨cursor, by simpa using hd, rfl⟩
  · rw [if_neg h0] at hd
    refine ⟨cursor + 1 + (encode_varint v).length, ?_, ?_⟩
    · have h2 := drop_add_of_drop_append hd
      rw [← h2]
      congr 1
      simp [encode_uint64]
      omega
    · apply ba_loop_step_acct d cursor 0 seq v rest ?_ hv
      rw [encode_uint64, List.cons_append] at hd
      exact hd

theorem ba_consume_seq (d : List Nat) (cursor acct v : Nat)
    (rest : List Nat) (hv : v < 2 ^ 64)
    (hd : d.drop cursor =
      (if v = 0 then [] else encode_uint64 0x20 v) ++ rest) :
    ∃ c2, d.drop c2 = rest ∧ ba_loop d cursor acct 0 = ba_loop d c2 acct v := by
  by_cases h0 : v = 0
  · subst h0
    exact ⟨cursor, by simpa using hd, rfl⟩
  · rw [if_neg h0] at hd
    refine ⟨cursor + 1 + (encode_varint v).length, ?_, ?_⟩
    · have h2 := drop_add_of_drop_append hd
      rw [← h2]
      congr 1
      simp [encode_uint64]
      omega
    · apply ba_loop_step_seq d cursor acct 0 v rest ?_ hv
      rw [encode_uint64, List.cons_append] at hd
      exact hd

theorem ba_loop_encodeBaseAccount (ba : BaseAccountData)
    (ha : ba.address.length < 2 ^ 64)
    (hpk : ∀ pb, ba.pub_key = some pb → pb.length < 2 ^ 64)
    (hacct : ba.account_number < 2 ^ 64) (hseq : ba.sequence < 2 ^ 64) :
    ba_loop (encodeBaseAccount ba) 0 0 0 =
      .ok (ba.account_number, ba.sequence) := by
  have h0 : (encodeBaseAccount ba).drop 0 =
      (if ba.address = [] then [] else
        encode_length_delimited 0x0a ba.address) ++
      ((match ba.pub_key with
        | some pb => encode_length_delimited 0x12 pb
        | none => []) ++
      ((if ba.account_number = 0 then [] else
        encode_uint64 0x18 ba.account_number) ++
      ((if ba.sequence = 0 then [] else encode_uint64 0x20 ba.sequence) ++
        []))) := by
    rw [List.drop_zero, encodeBaseAccount]
    simp [List.append_assoc]
  obtain ⟨c1, hd1, hs1⟩ := ba_consume_addr _ 0 0 0 ba.address _ ha h0
  obtain ⟨c2, hd2, hs2⟩ := ba_consume_pubkey _ c1 0 0 ba.pub_key _ hd1 hpk
  obtain ⟨c3, hd3, hs3⟩ :=
    ba_consume_acct _ c2 0 ba.account_number _ hacct hd2
  obtain ⟨c4, hd4, hs4⟩ :=
    ba_consume_seq _ c3 ba.account_number ba.sequence _ hseq hd3
  rw [hs1, hs2, hs3, hs4]
  apply ba_loop_end
  have := List.drop_eq_nil_iff.mp hd4
  omega

theorem parse_base_account_encode (ba : BaseAccountData)
    (ha : ba.address.length < 2 ^ 64)
    (hpk : ∀ pb, ba.pub_key = some pb → pb.length < 2 ^ 64)
    (hacct : ba.account_number < 2 ^ 64) (hseq : ba.sequence < 2 ^ 64) :
    parse_base_account (encodeBaseAccount ba) =
      if ba.account_number = 0 then
        .error "Account does not exist (account_number is 0)"
      else .ok (ba.account_number, ba.sequence) := by
  rw [parse_base_account, ba_loop_encodeBaseAccount ba ha hpk hacct hseq]

theorem parse_any_encodeAccountAny (ba : BaseAccountData)
    (hv : (encodeBaseAccount ba).length < 2 ^ 64) :
    parse_any_loop (encodeAccountAny ba) 0 none =
      .ok (if encodeBaseAccount ba = [] then none
        else some (encodeBaseAccount ba)) := by
  have htu_len : (strBytes "/cosmos.auth.v1beta1.BaseAccount").length < 2 ^ 64 := by
    decide
  have hsuf :
      baSuffix.isSuffixOf (strBytes "/cosmos.auth.v1beta1.BaseAccount") = true := by
    decide
  have h0 : (encodeAccountAny ba).drop 0 =
      0x0a :: (encode_varint (strBytes "/cosmos.auth.v1beta1.BaseAccount").length ++
        (strBytes "/cosmos.auth.v1beta1.BaseAccount" ++
          (if encodeBaseAccount ba = [] then [] else
            encode_length_delimited 0x12 (encodeBaseAccount ba)))) := by
    rw [List.drop_zero, encodeAccountAny, encode_string, encode_length_delimited]
    simp [List.append_assoc]
  rw [any_loop_step_typeurl (encodeAccountAny ba) 0 none _ _ h0 htu_len hsuf]
  have hd1 : (encodeAccountAny ba).drop
      (0 + 1 + (encode_varint
        (strBytes "/cosmos.auth.v1beta1.BaseAccount").length).length +
        (strBytes "/cosmos.auth.v1beta1.BaseAccount").length) =
      (if encodeBaseAccount ba = [] then [] else
        encode_length_delimited 0x12 (encodeBaseAccount ba)) := by
    have s1 := drop_succ_of_drop_cons h0
    have s2 := drop_add_of_drop_append s1
    have s3 := drop_add_of_drop_append s2
    exact s3
  by_cases hempty : encodeBaseAccount ba = []
  · rw [if_pos hempty] at hd1 ⊢
    apply any_loop_end
    have := List.drop_eq_nil_iff.mp hd1
    omega
  · rw [if_neg hempty] at hd1 ⊢
    have hd1' : (encodeAccountAny ba).drop
        (0 + 1 + (encode_varint
          (strBytes "/cosmos.auth.v1beta1.BaseAccount").length).length +
          (strBytes "/cosmos.auth.v1beta1.BaseAccount").length) =
        0x12 :: (encode_varint (encodeBaseAccount ba).length ++
          (encodeBaseAccount ba ++ [])) := by
      rw [hd1, encode_length_delimited]
      simp
    rw [any_loop_step_value _ _ none (encodeBaseAccount ba) [] hd1' hv]
    apply any_loop_end
    have s4 := drop_succ_of_drop_cons hd1'
    have s5 := drop_add_of_drop_append s4
    have s6 := drop_add_of_drop_append s5
    simp only [List.drop_eq_nil_iff] at s6
    omega

/-- Claim C4: for every well-formed QueryAccountResponse: if no account
field is present, or the contained BaseAccount has account_number 0, the
parser returns an account-not-found error and never a usable pair;
otherwise it returns the (account_number, sequence) taken from BaseAccount
fields 3 and 4. -/
theorem c4_account_gating (q : Option BaseAccountData)
    (hb : ∀ ba, q = some ba → ba.address.length < 2 ^ 32 ∧
      (∀ pb, ba.pub_key = some pb → pb.length < 2 ^ 32) ∧
      ba.account_number < 2 ^ 64 ∧ ba.sequence < 2 ^ 64) :
    (q = none → parse_account_info_from_abci (encodeQueryAccountResponse q) =
      .error "No valid account found in response") ∧
    (∀ ba, q = some ba → ba.account_number = 0 →
      ∃ e, parse_account_info_from_abci (encodeQueryAccountResponse q) =
        .error e) ∧
    (∀ ba, q = some ba → ba.account_number ≠ 0 →
      parse_account_info_from_abci (encodeQueryAccountResponse q) =
        .ok (ba.account_number, ba.sequence)) := by
  have main : ∀ ba, q = some ba →
      parse_account_info_from_abci (encodeQueryAccountResponse q) =
        (if encodeBaseAccount ba = [] then
          .error "No valid account found in response"
        else if ba.account_number = 0 then
          .error "Account does not exist (account_number is 0)"
        else .ok (ba.account_number, ba.sequence)) := by
    intro ba hq
    obtain ⟨haddr, hpk, hacct, hseq⟩ := hb ba hq
    have haddr64 : ba.address.length < 2 ^ 64 := lt_trans haddr (by norm_num)
    have hpk64 : ∀ pb, ba.pub_key = some pb → pb.length < 2 ^ 64 :=
      fun pb h => lt_trans (hpk pb h) (by norm_num)
    -- component length bounds
    have hF1 : ((if ba.address = [] then [] else
        encode_length_delimited 0x0a ba.address) : List Nat).length ≤
        11 + ba.address.length := by
      split
      · simp
      · have he := encode_varint_length_le 9 ba.address.length
          (lt_trans haddr (by norm_num))
        simp [encode_length_delimited]
        omega
    have hF2 : ((match ba.pub_key with
        | some pb => encode_length_delimited 0x12 pb
        | none => []) : List Nat).length ≤ 11 + 2 ^ 32 := by
      cases hpk2 : ba.pub_key with
      | none => simp
      | some pb =>
        have hlt := hpk pb hpk2
        have he := encode_varint_length_le 9 pb.length
          (lt_trans hlt (by norm_num))
        simp [encode_length_delimited]
        omega
    have hF3 : ((if ba.account_number = 0 then [] else
        encode_uint64 0x18 ba.account_number) : List Nat).length ≤ 11 := by
      split
      · simp
      · have he := encode_varint_length_le 9 ba.account_number
          (lt_trans hacct (by norm_num))
        simp [encode_uint64]
        omega
    have hF4 : ((if ba.sequence = 0 then [] else
        encode_uint64 0x20 ba.sequence) : List Nat).length ≤ 11 := by
      split
      · simp
      · have he := encode_varint_length_le 9 ba.sequence
          (lt_trans hseq (by norm_num))
        simp [encode_uint64]
        omega
    have hsum : (encodeBaseAccount ba).length =
        ((if ba.address = [] then [] else
          encode_length_delimited 0x0a ba.address) : List Nat).length +
        ((match ba.pub_key with
          | some pb => encode_length_delimited 0x12 pb
          | none => []) : List Nat).length +
        ((if ba.account_number = 0 then [] else
          encode_uint64 0x18 ba.account_number) : List Nat).length +
        ((if ba.sequence = 0 then [] else
          encode_uint64 0x20 ba.sequence) : List Nat).length := by
      rw [encodeBaseAccount]
      simp [List.length_append]
      omega
    have hvlen : (encodeBaseAccount ba).length < 2 ^ 64 := by omega
    have hevv := encode_varint_length_le 9 (encodeBaseAccount ba).length
      (lt_trans hvlen (by norm_num))
    have htu : (strBytes "/cosmos.auth.v1beta1.BaseAccount").length = 32 := by
      decide
    have hev32 : (encode_varint
        (strBytes "/cosmos.auth.v1beta1.BaseAccount").length).length = 1 := by
      rw [htu, encode_varint_lt128 (by norm_num)]
      rfl
    have hAlen : (encodeAccountAny ba).length < 2 ^ 64 := by
      rw [encodeAccountAny, encode_string, encode_length_delimited]
      simp only [List.length_cons, List.length_append]
      rw [hev32, htu]
      have hval : ((if encodeBaseAccount ba = [] then [] else
          encode_length_delimited 0x12 (encodeBaseAccount ba)) :
            List Nat).length ≤ 11 + (encodeBaseAccount ba).length := by
        split
        · simp
        · simp [encode_length_delimited]
          omega
      omega
    have hdrop : (encodeQueryAccountResponse q).drop 0 =
        0x0a :: (encode_varint (encodeAccountAny ba).length ++
          (encodeAccountAny ba ++ [])) := by
      rw [hq]
      rw [List.drop_zero, encodeQueryAccountResponse, encode_length_delimited]
      simp
    rw [parse_account_info_from_abci,
      qar_loop_step_account _ 0 (encodeAccountAny ba) [] hdrop hAlen,
      parse_any_encodeAccountAny ba hvlen]
    by_cases hempty : encodeBaseAccount ba = []
    · rw [if_pos hempty]
      simp only []
      rw [if_pos hempty]
      apply qar_loop_end
      have s1 := drop_succ_of_drop_cons hdrop
      have s2 := drop_add_of_drop_append s1
      have s3 := drop_add_of_drop_append s2
      simp only [List.drop_eq_nil_iff] at s3
      omega
    · rw [if_neg hempty]
      simp only []
      rw [if_neg hempty]
      rw [parse_base_account_encode ba haddr64 hpk64 hacct hseq]
  refine ⟨?_, ?_, ?_⟩
  · intro hq
    subst hq
    rw [parse_account_info_from_abci, encodeQueryAccountResponse]
    exact qar_loop_end [] 0 (by simp)
  · intro ba hq h0
    rw [main ba hq]
    by_cases he : encodeBaseAccount ba = []
    · rw [if_pos he]
      exact ⟨_, rfl⟩
    · rw [if_neg he, if_pos h0]
      exact ⟨_, rfl⟩
  · intro ba hq h0
    rw [main ba hq]
    have hne : encodeBaseAccount ba ≠ [] := by
      intro hcontra
      have hlen0 := congrArg List.length hcontra
      rw [encodeBaseAccount] at hlen0
      simp only [List.length_append, List.length_nil] at hlen0
      rw [if_neg h0] at hlen0
      simp [encode_uint64] at hlen0
    rw [if_neg hne, if_neg h0]

/-- Claim C4 witness: a BaseAccount with account number 5 and sequence 7
parses back to (5, 7). -/
theorem c4_witness :
    parse_account_info_from_abci
        (encodeQueryAccountResponse (some ⟨[99], none, 5, 7⟩)) =
      .ok ((5 : Nat), (7 : Nat)) :=
  (c4_account_gating (some ⟨[99], none, 5, 7⟩)
      (by intro ba h; cases h; refine ⟨by decide, ?_, by decide, by decide⟩
          intro pb h2; cases h2)).2.2
    ⟨[99], none, 5, 7⟩ rfl (by decide)

/-- Truncation to 32 bits (u32 arithmetic). -/
def w32 (n : Nat) : Nat := n % 2 ^ 32

/-- 32-bit left rotation. -/
def rotl32 (n r : Nat) : Nat := w32 ((n <<< r) ||| (n >>> (32 - r)))

/-- 32-bit right rotation. -/
def rotr32 (n r : Nat) : Nat := w32 ((n >>> r) ||| (n <<< (32 - r)))

/-- 32-bit bitwise complement. -/
def not32 (n : Nat) : Nat := n ^^^ 0xFFFFFFFF

/-- Big-endian bytes of a 32-bit word. -/
def be32 (n : Nat) : List Nat :=
  [(n >>> 24) &&& 255, (n >>> 16) &&& 255, (n >>> 8) &&& 255, n &&& 255]

/-- Little-endian bytes of a 32-bit word. -/
def le32 (n : Nat) : List Nat :=
  [n &&& 255, (n >>> 8) &&& 255, (n >>> 16) &&& 255, (n >>> 24) &&& 255]

/-- Big-endian bytes of a 64-bit word. -/
def be64 (n : Nat) : List Nat :=
  [(n >>> 56) &&& 255, (n >>> 48) &&& 255, (n >>> 40) &&& 255,
   (n >>> 32) &&& 255, (n >>> 24) &&& 255, (n >>> 16) &&& 255,
   (n >>> 8) &&& 255, n &&& 255]

/-- Little-endian bytes of a 64-bit word. -/
def le64 (n : Nat) : List Nat :=
  [n &&& 255, (n >>> 8) &&& 255, (n >>> 16) &&& 255, (n >>> 24) &&& 255,
   (n >>> 32) &&& 255, (n >>> 40) &&& 255, (n >>> 48) &&& 255,
   (n >>> 56) &&& 255]

/-- Bytes to 32-bit words, big-endian. -/
def words32BE : List Nat → List Nat
  | a :: b :: c :: d :: rest =>
    (((a <<< 24) ||| (b <<< 16)) ||| ((c <<< 8) ||| d)) :: words32BE rest
  | _ => []

/-- Bytes to 32-bit words, little-endian. -/
def words32LE : List Nat → List Nat
  | a :: b :: c :: d :: rest =>
    ((a ||| (b <<< 8)) ||| ((c <<< 16) ||| (d <<< 24))) :: words32LE rest
  | _ => []

/-- Split a word list into 16-word blocks (one 512-bit block each). -/
def chunk16w : List Nat → List (List Nat)
  | a1 :: a2 :: a3 :: a4 :: a5 :: a6 :: a7 :: a8 :: a9 :: a10 :: a11 :: a12 ::
      a13 :: a14 :: a15 :: a16 :: rest =>
    [a1, a2, a3, a4, a5, a6, a7, a8, a9, a10, a11, a12, a13, a14, a15, a16] ::
      chunk16w rest
  | _ => []

/-- SHA-256 round constants (FIPS 180-4), as used by the sha2 crate. -/
def shaK : List Nat :=
  [1116352408, 1899447441, 3049323471, 3921009573, 961987163, 1508970993,
   2453635748, 2870763221, 3624381080, 310598401, 607225278, 1426881987,
   1925078388, 2162078206, 2614888103, 3248222580, 3835390401, 4022224774,
   264347078, 604807628, 770255983, 1249150122, 1555081692, 1996064986,
   2554220882, 2821834349, 2952996808, 3210313671, 3336571891, 3584528711,
   113926993, 338241895, 666307205, 773529912, 1294757372, 1396182291,
   1695183700, 1986661051, 2177026350, 2456956037, 2730485921, 2820302411,
   3259730800, 3345764771, 3516065817, 3600352804, 4094571909, 275423344,
   430227734, 506948616, 659060556, 883997877, 958139571, 1322822218,
   1537002063, 1747873779, 1955562222, 2024104815, 2227730452, 2361852424,
   2428436474, 2756734187, 3204031479, 3329325298]

/-- SHA-256 initial hash state. -/
def shaH0 : List Nat :=
  [0x6a09e667, 0xbb67ae85, 0x3c6ef372, 0xa54ff53a, 0x510e527f, 0x9b05688c,
   0x1f83d9ab, 0x5be0cd19]

/-- SHA-256 message-schedule sigma-0. -/
def sha_small_sigma0 (x : Nat) : Nat := rotr32 x 7 ^^^ rotr32 x 18 ^^^ (x >>> 3)

/-- SHA-256 message-schedule sigma-1. -/
def sha_small_sigma1 (x : Nat) : Nat := rotr32 x 17 ^^^ rotr32 x 19 ^^^ (x >>> 10)

/-- Expand a 16-word block to the 64-word SHA-256 message schedule. -/
def sha_schedule (block : List Nat) : List Nat :=
  (List.range 48).foldl (fun w _ =>
    let n := w.length
    w ++ [w32 (w.getD (n - 16) 0 + sha_small_sigma0 (w.getD (n - 15) 0) +
      w.getD (n - 7) 0 + sha_small_sigma1 (w.getD (n - 2) 0))]) block

/-- One SHA-256 compression round on the eight-word working state. -/
def sha_round (st : List Nat) (wk : Nat × Nat) : List Nat :=
  match st with
  | [a, b, c, d, e, f, g, h] =>
    let s1 := rotr32 e 6 ^^^ rotr32 e 11 ^^^ rotr32 e 25
    let ch := (e &&& f) ^^^ (not32 e &&& g)
    let temp1 := w32 (h + s1 + ch + wk.2 + wk.1)
    let s0 := rotr32 a 2 ^^^ rotr32 a 13 ^^^ rotr32 a 22
    let maj := (a &&& b) ^^^ (a &&& c) ^^^ (b &&& c)
    let temp2 := w32 (s0 + maj)
    [w32 (temp1 + temp2), a, b, c, w32 (d + temp1), e, f, g]
  | _ => st

/-- Zero padding count for Merkle–Damgård padding of a message of this length
(so that length + 1 + zeros is 56 mod 64). -/
def sha_pad_zeros (len : Nat) : Nat := (119 - len % 64) % 64

/-- Embeds the sha2 crate's Sha256 used by public_key_to_cosmos_address
(cosmos_transaction_utils.rs lines 55-57): the standard FIPS 180-4 SHA-256,
validated against the published test vector for the message "abc". -/
def sha256 (msg : List Nat) : List Nat :=
  let padded := msg ++ 0x80 :: (List.replicate (sha_pad_zeros msg.length) 0 ++
    be64 (msg.length * 8))
  let blocks := chunk16w (words32BE padded)
  let hs := blocks.foldl (fun hs block =>
    let w := sha_schedule block
    let st := (w.zip shaK).foldl sha_round hs
    List.zipWith (fun x y => w32 (x + y)) hs st) shaH0
  (hs.map be32).flatten

/-- RIPEMD-160 initial hash state. -/
def ripemdH0 : List Nat :=
  [0x67452301, 0xEFCDAB89, 0x98BADCFE, 0x10325476, 0xC3D2E1F0]

/-- RIPEMD-160 round functions f1..f5, selected by the round index. -/
def ripemd_f (j x y z : Nat) : Nat :=
  if j < 16 then x ^^^ y ^^^ z
  else if j < 32 then (x &&& y) ||| (not32 x &&& z)
  else if j < 48 then (x ||| not32 y) ^^^ z
  else if j < 64 then (x &&& z) ||| (y &&& not32 z)
  else x ^^^ (y ||| not32 z)

/-- RIPEMD-160 left-line round constants. -/
def ripemd_K_left (j : Nat) : Nat :=
  if j < 16 then 0 else if j < 32 then 0x5A827999 else if j < 48 then 0x6ED9EBA1
  else if j < 64 then 0x8F1BBCDC else 0xA953FD4E

/-- RIPEMD-160 right-line round constants. -/
def ripemd_K_right (j : Nat) : Nat :=
  if j < 16 then 0x50A28BE6 else if j < 32 then 0x5C4DD124
  else if j < 48 then 0x6D703EF3 else if j < 64 then 0x7A6D76E9 else 0

/-- RIPEMD-160 left-line message word order. -/
def ripemd_r_left : List Nat :=
  [0, 1, 2, 3, 4, 5, 6, 7, 8, 9, 10, 11, 12, 13, 14, 15,
   7, 4, 13, 1, 10, 6, 15, 3, 12, 0, 9, 5, 2, 14, 11, 8,
   3, 10, 14, 4, 9, 15, 8, 1, 2, 7, 0, 6, 13, 11, 5, 12,
   1, 9, 11, 10, 0, 8, 12, 4, 13, 3, 7, 15, 14, 5, 6, 2,
   4, 0, 5, 9, 7, 12, 2, 10, 14, 1, 3, 8, 11, 6, 15, 13]

/-- RIPEMD-160 right-line message word order. -/
def ripemd_r_right : List Nat :=
  [5, 14, 7, 0, 9, 2, 11, 4, 13, 6, 15, 8, 1, 10, 3, 12,
   6, 11, 3, 7, 0, 13, 5, 10, 14, 15, 8, 12, 4, 9, 1, 2,
   15, 5, 1, 3, 7, 14, 6, 9, 11, 8, 12, 2, 10, 0, 4, 13,
   8, 6, 4, 1, 3, 11, 15, 0, 5, 12, 2, 13, 9, 7, 10, 14,
   12, 15, 10, 4, 1, 5, 8, 7, 6, 2, 13, 14, 0, 3, 9, 11]

/-- RIPEMD-160 left-line rotation amounts. -/
def ripemd_s_left : List Nat :=
  [11, 14, 15, 12, 5, 8, 7, 9, 11, 13, 14, 15, 6, 7, 9, 8,
   7, 6, 8, 13, 11, 9, 7, 15, 7, 12, 15, 9, 11, 7, 13, 12,
   11, 13, 6, 7, 14, 9, 13, 15, 14, 8, 13, 6, 5, 12, 7, 5,
   11, 12, 14, 15, 14, 15, 9, 8, 9, 14, 5, 6, 8, 6, 5, 12,
   9, 15, 5, 11, 6, 8, 13, 12, 5, 12, 13, 14, 11, 8, 5, 6]

/-- RIPEMD-160 right-line rotation amounts. -/
def ripemd_s_right : List Nat :=
  [8, 9, 9, 11, 13, 15, 15, 5, 7, 7, 8, 11, 14, 14, 12, 6,
   9, 13, 15, 7, 12, 8, 9, 11, 7, 7, 12, 7, 6, 15, 13, 11,
   9, 7, 15, 11, 8, 6, 6, 14, 12, 13, 5, 14, 13, 13, 7, 5,
   15, 5, 8, 11, 14, 14, 6, 14, 6, 9, 12, 9, 12, 5, 15, 8,
   8, 5, 12, 9, 12, 5, 14, 6, 8, 13, 6, 5, 15, 13, 11, 11]

/-- One RIPEMD-160 round on the five-word state of one line (fj is the index
selecting the round function, r/s/k word index, rotation and constant). -/
def ripemd_line (x : List Nat) (st : List Nat) (fj r s k : Nat) : List Nat :=
  match st with
  | [a, b, c, d, e] =>
    let t := w32 (rotl32 (w32 (a + ripemd_f fj b c d + x.getD r 0 + k)) s + e)
    [e, t, b, rotl32 c 10, d]
  | _ => st

/-- RIPEMD-160 compression of one 16-word block: 80 rounds on each of the two
lines (the right line uses round function 79 - j), then the rotated combine. -/
def ripemd_block (hs : List Nat) (x : List Nat) : List Nat :=
  let ll := (List.range 80).foldl (fun st j =>
    ripemd_line x st j (ripemd_r_left.getD j 0) (ripemd_s_left.getD j 0)
      (ripemd_K_left j)) hs
  let rr := (List.range 80).foldl (fun st j =>
    ripemd_line x st (79 - j) (ripemd_r_right.getD j 0)
      (ripemd_s_right.getD j 0) (ripemd_K_right j)) hs
  [w32 (hs.getD 1 0 + ll.getD 2 0 + rr.getD 3 0),
   w32 (hs.getD 2 0 + ll.getD 3 0 + rr.getD 4 0),
   w32 (hs.getD 3 0 + ll.getD 4 0 + rr.getD 0 0),
   w32 (hs.getD 4 0 + ll.getD 0 0 + rr.getD 1 0),
   w32 (hs.getD 0 0 + ll.getD 1 0 + rr.getD 2 0)]

/-- Embeds the ripemd crate's Ripemd160 used by public_key_to_cosmos_address
(cosmos_transaction_utils.rs lines 59-61): the standard RIPEMD-160 with
little-endian words and length, validated against the published test vectors
for "" and "abc". -/
def ripemd160 (msg : List Nat) : List Nat :=
  let padded := msg ++ 0x80 :: (List.replicate (sha_pad_zeros msg.length) 0 ++
    le64 (msg.length * 8))
  let blocks := chunk16w (words32LE padded)
  let hs := blocks.foldl ripemd_block ripemdH0
  (hs.map le32).flatten

/-- The eight bits of a byte, most significant first. -/
def bits8 (b : Nat) : List Nat :=
  [(b >>> 7) &&& 1, (b >>> 6) &&& 1, (b >>> 5) &&& 1, (b >>> 4) &&& 1,
   (b >>> 3) &&& 1, (b >>> 2) &&& 1, (b >>> 1) &&& 1, b &&& 1]

/-- Regroup a bit list into 5-bit values, zero-padding the final group. -/
def chunk5 : List Nat → List Nat
  | [] => []
  | b1 :: b2 :: b3 :: b4 :: b5 :: rest =>
    ((b1 <<< 4) ||| (b2 <<< 3) ||| (b3 <<< 2) ||| (b4 <<< 1) ||| b5) ::
      chunk5 rest
  | [b1] => [b1 <<< 4]
  | [b1, b2] => [(b1 <<< 4) ||| (b2 <<< 3)]
  | [b1, b2, b3] => [(b1 <<< 4) ||| (b2 <<< 3) ||| (b3 <<< 2)]
  | [b1, b2, b3, b4] => [(b1 <<< 4) ||| (b2 <<< 3) ||| (b3 <<< 2) ||| (b4 <<< 1)]

/-- Embeds bech32::ToBase32 (data.to_base32() at cosmos_transaction_utils.rs
line 65): 8-bit bytes regrouped into 5-bit values, final group zero-padded. -/
def toBase32 (bs : List Nat) : List Nat := chunk5 ((bs.map bits8).flatten)

/-- The bech32 data character set. -/
def bech32Charset : List Char := "qpzry9x8gf2tvdw0s3jn54khce6mua7l".data

/-- Bech32 checksum expansion of the human-readable part. -/
def hrpExpand (hrp : List Char) : List Nat :=
  hrp.map (fun c => c.toNat >>> 5) ++ 0 :: hrp.map (fun c => c.toNat &&& 31)

/-- Bech32 checksum generator constants. -/
def bech32Gen : List Nat :=
  [0x3b6a57b2, 0x26508e6b, 0x1ea119fa, 0x3d4233dd, 0x2a1462b3]

/-- One step of the bech32 checksum polynomial. -/
def polymodStep (chk v : Nat) : Nat :=
  let b := chk >>> 25
  (List.range 5).foldl
    (fun c i => if (b >>> i) &&& 1 = 1 then c ^^^ bech32Gen.getD i 0 else c)
    (((chk &&& 0x1ffffff) <<< 5) ^^^ v)

/-- Bech32 checksum polynomial over a value list, starting from 1. -/
def bech32Polymod (vs : List Nat) : Nat := vs.foldl polymodStep 1

/-- The six bech32 checksum characters for the given hrp, data and variant
constant (Variant::Bech32 is the constant 1, Bech32m is 0x2bc830a3). -/
def bech32Checksum (hrp : List Char) (data : List Nat) (const : Nat) : List Nat :=
  let pm := bech32Polymod (hrpExpand hrp ++ data ++ [0, 0, 0, 0, 0, 0]) ^^^ const
  (List.range 6).map (fun i => (pm >>> (5 * (5 - i))) &&& 31)

/-- A character the bech32 crate accepts in a human-readable part. -/
def hrpCharOk (c : Char) : Bool := Nat.ble 33 c.toNat && Nat.ble c.toNat 126

/-- Embeds bech32::encode (cosmos_transaction_utils.rs line 65): hrp, the
separator 1, the 5-bit data mapped through the character set, then the
six-character checksum of the requested variant; errors on an invalid hrp.
Validated against the address test vector in cosmos-utils and an independent
reimplementation. -/
def bech32Encode (hrp : String) (data : List Nat) (const : Nat) :
    Except String String :=
  if hrp.data = [] ∨ 83 < hrp.data.length ∨ ¬ hrp.data.all hrpCharOk then
    .error "invalid human-readable part"
  else
    .ok (String.mk (hrp.data ++ '1' ::
      (data ++ bech32Checksum hrp.data data const).map
        (fun v => bech32Charset.getD v 'q')))

/-- The base58 (Bitcoin) alphabet used by the bs58 crate. -/
def base58Alphabet : List Char :=
  "123456789ABCDEFGHJKLMNPQRSTUVWXYZabcdefghijkmnopqrstuvwxyz".data

/-- Big-endian byte expansion of a natural number (fuel-bounded; the fuel is
the number itself, which always suffices since n < 256 ^ n for n > 0). -/
def natBytesBE_go : Nat → Nat → List Nat
  | 0, _ => []
  | fuel + 1, n => if n = 0 then [] else natBytesBE_go fuel (n / 256) ++ [n % 256]

/-- Big-endian byte expansion of a natural number, empty for 0. -/
def natBytesBE (n : Nat) : List Nat := natBytesBE_go n n

/-- Embeds bs58::decode(..).into_vec() (cosmos_transaction_utils.rs lines
51-53): base-58 big-endian value accumulation, with one zero byte per leading
1 character; any character outside the alphabet is an error (the code wraps
the crate's error text into a message beginning "Failed to decode public
key"). -/
def bs58Decode (s : String) : Except String (List Nat) := do
  let vals ← s.data.mapM (fun c =>
    match base58Alphabet.indexOf? c with
    | some v => Except.ok v
    | none => Except.error "Failed to decode public key")
  let acc := vals.foldl (fun a v => a * 58 + v) 0
  let zeros := (s.data.takeWhile (fun c => c == '1')).length
  pure (List.replicate zeros 0 ++ natBytesBE acc)

/-- Embeds public_key_to_cosmos_address (cosmos_transaction_utils.rs lines
50-68): base58-decode the public key, hash with SHA-256 then RIPEMD-160, and
bech32-encode the 20-byte hash under the hrp "cosmos" with Variant::Bech32. -/
def public_key_to_cosmos_address (public_key : String) :
    Except String String := do
  let decoded ← bs58Decode public_key
  let sha256_hash := sha256 decoded
  let ripemd160_hash := ripemd160 sha256_hash
  let data := ripemd160_hash
  match bech32Encode "cosmos" (toBase32 data) 1 with
  | .ok encoded => pure encoded
  | .error e => .error ("Failed to encode address: " ++ e)

lemma le32_length (n : Nat) : (le32 n).length = 4 := rfl

lemma flatten_map_le32_length : ∀ l : List Nat,
    ((l.map le32).flatten).length = 4 * l.length
  | [] => rfl
  | n :: t => by
    simp only [List.map_cons, List.flatten_cons, List.length_append,
      le32_length, flatten_map_le32_length t, List.length_cons]
    ring

lemma ripemd_block_length (hs x : List Nat) : (ripemd_block hs x).length = 5 := rfl

lemma foldl_ripemd_block_length : ∀ (bs : List (List Nat)) (hs : List Nat),
    hs.length = 5 → (bs.foldl ripemd_block hs).length = 5
  | [], hs, h => h
  | b :: t, hs, _ => by
    simp only [List.foldl_cons]
    exact foldl_ripemd_block_length t _ (ripemd_block_length hs b)

lemma ripemd160_length (m : List Nat) : (ripemd160 m).length = 20 := by
  simp only [ripemd160]
  rw [flatten_map_le32_length, foldl_ripemd_block_length _ ripemdH0 rfl]

lemma bits8_length (b : Nat) : (bits8 b).length = 8 := rfl

lemma flatten_map_bits8_length : ∀ l : List Nat,
    ((l.map bits8).flatten).length = 8 * l.length
  | [] => rfl
  | n :: t => by
    simp only [List.map_cons, List.flatten_cons, List.length_append,
      bits8_length, flatten_map_bits8_length t, List.length_cons]
    ring

lemma chunk5_length : ∀ l : List Nat, (chunk5 l).length = (l.length + 4) / 5
  | [] => rfl
  | [_] => by simp [chunk5]
  | [_, _] => by simp [chunk5]
  | [_, _, _] => by simp [chunk5]
  | [_, _, _, _] => by simp [chunk5]
  | _ :: _ :: _ :: _ :: _ :: rest => by
    simp only [chunk5, List.length_cons, chunk5_length rest]
    omega

lemma toBase32_length (l : List Nat) : (toBase32 l).length = (8 * l.length + 4) / 5 := by
  simp only [toBase32, chunk5_length, flatten_map_bits8_length]

/-- Claim C8: public_key_to_cosmos_address is a pure function (equal public
keys derive equal results), and every successfully derived address starts
with "cosmos1" (the chain's hrp and the bech32 separator) and has total
length 45 = 7 + 32 data characters (a 20-byte hash payload in 5-bit groups)
+ 6 checksum characters. -/
theorem c8_address_derivation (pk1 pk2 addr : String) (heq : pk1 = pk2)
    (h : public_key_to_cosmos_address pk1 = .ok addr) :
    public_key_to_cosmos_address pk2 = .ok addr ∧
    List.isPrefixOf "cosmos1".data addr.data = true ∧
    addr.length = 45 := by
  subst heq
  refine ⟨h, ?_⟩
  rw [public_key_to_cosmos_address] at h
  rcases hd : bs58Decode pk1 with e | decoded
  · rw [hd] at h; simp [bind, Except.bind] at h
  · rw [hd] at h
    simp only [bind, Except.bind] at h
    rw [bech32Encode, if_neg (by decide)] at h
    simp only [pure, Except.pure, Except.ok.injEq] at h
    subst h
    constructor
    · show List.isPrefixOf "cosmos1".data ("cosmos".data ++ '1' :: _) = true
      simp [List.isPrefixOf, show "cosmos1".data =
        ['c', 'o', 's', 'm', 'o', 's', '1'] from rfl,
        show "cosmos".data = ['c', 'o', 's', 'm', 'o', 's'] from rfl]
    · show (String.mk _).length = 45
      simp only [String.length, List.length_append, List.length_cons,
        List.length_map, toBase32_length, ripemd160_length, bech32Checksum,
        List.length_range]
      decide

set_option maxRecDepth 100000

/-- Claim C8 witness: a concrete public key derives a concrete address with
the "cosmos1" prefix and length 45 (the address value was cross-checked
against an independent implementation of the same pipeline). -/
theorem c8_witness :
    public_key_to_cosmos_address "11BvnE9dZTz9G3nP3DnHyNDU8RWv6GhSBV" =
      .ok "cosmos13w3f8ls4e5lkjz6rj8z3hj7a6hg9gfh74mh4kn" ∧
    List.isPrefixOf "cosmos1".data
      "cosmos13w3f8ls4e5lkjz6rj8z3hj7a6hg9gfh74mh4kn".data = true ∧
    ("cosmos13w3f8ls4e5lkjz6rj8z3hj7a6hg9gfh74mh4kn" : String).length = 45 :=
  c8_address_derivation _ _ _ rfl (by rfl)
